import Mathlib

/-!
# theeldarka/servers: the record router of `main.go`

A shallow embedding of `handleRequest`, `getServerInfo`, `updateServerInfo`
and `deleteServerInfo`.

* Go strings are Lean `String`s (well-formed Unicode text; the Lambda runtime
  decodes the request from JSON, which yields valid UTF-8).
* The process-wide `memcachedClient` is passed explicitly and returned with
  every result.  The cache itself is an external collaborator: it is a
  key/value black box with `Get`, `Set` and `Delete`, a script of injected
  faults (connectivity, time-outs, keys the client refuses, ...) and a trace
  of the calls it received.  A call that fails leaves the records as they were.
* `encoding/json` and `strings.Split` are the Go standard library; they are
  embedded for the inputs the program gives them (string-valued members, a
  one-byte separator).
* The readers of JSON text (`json.unquote`, `json.readLiteral`,
  `parseServerInfo`), `storeValid` and `firstNonEmptySegment` are not code of
  the program: they say what the specification means by a string value, by a
  record of the shape `{api, ws, grpc}` and by the key of a path.
-/

namespace Servers

/-! ## `net/http` constants -/

namespace http

def StatusOK : Nat := 200
def StatusNoContent : Nat := 204
def StatusForbidden : Nat := 403
def StatusNotFound : Nat := 404
def StatusMethodNotAllowed : Nat := 405
def StatusInternalServerError : Nat := 500

def MethodGet : String := "GET"
def MethodPost : String := "POST"
def MethodPatch : String := "PATCH"
def MethodDelete : String := "DELETE"

end http

/-! ## `strings.Split` with a one-character separator -/

namespace strings

/-- The segments of a character list between occurrences of `sep`; there is
always one segment more than there are separators. -/
def splitChars (sep : Char) : List Char → List (List Char)
  | [] => [[]]
  | c :: cs =>
    if c = sep then [] :: splitChars sep cs
    else
      match splitChars sep cs with
      | [] => [[c]]
      | seg :: segs => (c :: seg) :: segs

/-- Go `strings.Split(s, sep)` for a separator of one character. -/
def Split (s : String) (sep : Char) : List String :=
  (splitChars sep s.data).map String.mk

end strings

/-! ## `encoding/json` on strings -/

namespace json

/-- The double quote character. -/
def quote : Char := Char.ofNat 34

/-- The backslash character. -/
def backslash : Char := Char.ofNat 92

/-- Go `hex[n]`, the lower-case hexadecimal digit of `n < 16`. -/
def hex (n : Nat) : Char :=
  "0123456789abcdef".data.getD n '0'

/-- Go `htmlSafeSet[b]` extended to all characters: the characters the
encoder copies unchanged.  In ASCII these are 0x20..0x7f without the double
quote, the ampersand, the angle brackets and the backslash; outside ASCII
everything but U+2028 and U+2029. -/
def htmlSafe (c : Char) : Bool :=
  if c.toNat < 128 then
    decide (32 ≤ c.toNat) && c.toNat != 34 && c.toNat != 38 && c.toNat != 60
      && c.toNat != 62 && c.toNat != 92
  else
    c.toNat != 8232 && c.toNat != 8233

/-- What Go `appendString` (with `escapeHTML` set, as `json.Marshal` does)
writes for one character. -/
def appendChar (c : Char) : List Char :=
  if htmlSafe c then [c]
  else if c.toNat = 92 ∨ c.toNat = 34 then [backslash, c]
  else if c.toNat = 8 then [backslash, 'b']
  else if c.toNat = 12 then [backslash, 'f']
  else if c.toNat = 10 then [backslash, 'n']
  else if c.toNat = 13 then [backslash, 'r']
  else if c.toNat = 9 then [backslash, 't']
  else if c.toNat < 128 then
    [backslash, 'u', '0', '0', hex (c.toNat / 16), hex (c.toNat % 16)]
  else
    [backslash, 'u', '2', '0', '2', hex (c.toNat % 16)]

/-- Go `appendString`: a JSON string literal for `s`. -/
def appendString (s : String) : String :=
  String.mk (quote :: (s.data.flatMap appendChar ++ [quote]))

/-- One `"name":"value"` member of an object. -/
def member (p : String × String) : String :=
  appendString p.1 ++ ":" ++ appendString p.2

/-- A JSON object with string-valued members, written in the given order. -/
def object (members : List (String × String)) : String :=
  "\x7b" ++ ",".intercalate (members.map member) ++ "\x7d"

/-- Go `json.Marshal` on a value whose encoding is an object of string
members `members` (struct fields in declaration order, map entries in key
order).  Encoding strings cannot fail, so the error result never occurs. -/
def Marshal (members : List (String × String)) : Except String String :=
  .ok (object members)

/-! ### Reading a JSON string literal (RFC 8259)

Not part of the program: used to state which string an encoded literal
denotes. -/

/-- The value of a hexadecimal digit. -/
def hexVal (c : Char) : Option Nat :=
  if 48 ≤ c.toNat ∧ c.toNat ≤ 57 then some (c.toNat - 48)
  else if 97 ≤ c.toNat ∧ c.toNat ≤ 102 then some (c.toNat - 87)
  else if 65 ≤ c.toNat ∧ c.toNat ≤ 70 then some (c.toNat - 55)
  else none

/-- The character a one-letter escape stands for. -/
def escapeChar (e : Char) : Option Char :=
  if e = quote then some quote
  else if e = backslash then some backslash
  else if e = '/' then some '/'
  else if e = 'b' then some (Char.ofNat 8)
  else if e = 'f' then some (Char.ofNat 12)
  else if e = 'n' then some (Char.ofNat 10)
  else if e = 'r' then some (Char.ofNat 13)
  else if e = 't' then some (Char.ofNat 9)
  else none

/-- Reads a JSON string literal from just after its opening quote to its
closing quote, which must be the last character: the characters the literal
denotes. -/
def unescape : List Char → Option (List Char)
  | [] => none
  | c :: cs =>
    if c = quote then (if cs = [] then some [] else none)
    else if c = backslash then
      match cs with
      | [] => none
      | e :: rest =>
        if e = 'u' then
          match rest with
          | h1 :: h2 :: h3 :: h4 :: rest' =>
            match hexVal h1, hexVal h2, hexVal h3, hexVal h4, unescape rest' with
            | some d1, some d2, some d3, some d4, some tail =>
              some (Char.ofNat (((d1 * 16 + d2) * 16 + d3) * 16 + d4) :: tail)
            | _, _, _, _, _ => none
          | _ => none
        else
          match escapeChar e, unescape rest with
          | some d, some tail => some (d :: tail)
          | _, _ => none
    else if c.toNat < 32 then none
    else
      match unescape cs with
      | some tail => some (c :: tail)
      | none => none

/-- The string a JSON string literal denotes. -/
def unquote (s : String) : Option String :=
  match s.data with
  | [] => none
  | c :: cs => if c = quote then (unescape cs).map String.mk else none

/-- Reads a JSON string literal from just after its opening quote up to its
closing quote: the characters the literal denotes and the input that follows
the closing quote. -/
def readString : List Char → Option (List Char × List Char)
  | [] => none
  | c :: cs =>
    if c = quote then some ([], cs)
    else if c = backslash then
      match cs with
      | [] => none
      | e :: rest =>
        if e = 'u' then
          match rest with
          | h1 :: h2 :: h3 :: h4 :: rest' =>
            match hexVal h1, hexVal h2, hexVal h3, hexVal h4, readString rest' with
            | some d1, some d2, some d3, some d4, some (tail, after) =>
              some (Char.ofNat (((d1 * 16 + d2) * 16 + d3) * 16 + d4) :: tail, after)
            | _, _, _, _, _ => none
          | _ => none
        else
          match escapeChar e, readString rest with
          | some d, some (tail, after) => some (d :: tail, after)
          | _, _ => none
    else if c.toNat < 32 then none
    else
      match readString cs with
      | some (tail, after) => some (c :: tail, after)
      | none => none

/-- Reads a JSON string literal at the head of the input. -/
def readLiteral : List Char → Option (List Char × List Char)
  | [] => none
  | c :: cs => if c = quote then readString cs else none

/-- Removes the fixed text `lit` from the head of the input. -/
def expect : List Char → List Char → Option (List Char)
  | [], input => some input
  | _ :: _, [] => none
  | c :: cs, d :: ds => if c = d then expect cs ds else none

end json

/-! ## The memcache client (external, modelled as a black box) -/

namespace memcache

/-- Errors a cache call can return.  `ErrCacheMiss` is "not found"; the others
stand for the failures of the transport and the server. -/
inductive Error
  | ErrCacheMiss
  | ErrMalformedKey
  | ErrServerError
  | ErrNoServers
  | ErrTimeout
  deriving DecidableEq, Repr

/-- Go `memcache.Item`, restricted to the fields the program sets and reads. -/
structure Item where
  Key : String
  Value : String
  deriving DecidableEq, Repr

/-- A call received by the cache. -/
inductive Call
  | Get (key : String)
  | Set (key : String) (value : String)
  | Delete (key : String)
  deriving DecidableEq, Repr

/-- The key a call is about. -/
def Call.key : Call → String
  | .Get key => key
  | .Set key _ => key
  | .Delete key => key

/-- Whether a call reads only. -/
def Call.isGet : Call → Bool
  | .Get _ => true
  | _ => false

/-- The client handle together with the cache behind it: the records held,
the faults injected into the calls to come (one entry per call, `none` for a
call that is served normally) and the calls received so far. -/
structure Client where
  items : List (String × String)
  faults : List (Option Error)
  calls : List Call
  deriving DecidableEq, Repr

namespace Client

/-- The fault injected into the next call, if any. -/
def pending (c : Client) : Option Error :=
  match c.faults with
  | some e :: _ => some e
  | _ => none

/-- The client after receiving `call`: the fault script advances and the call
is appended to the trace. -/
def record (c : Client) (call : Call) : Client :=
  { c with faults := c.faults.tail, calls := c.calls ++ [call] }

/-- The records other than the one under `key`. -/
def without (items : List (String × String)) (key : String) : List (String × String) :=
  items.filter (fun p => p.1 != key)

/-- Go `(*Client).Get`: the item under `key`, or `ErrCacheMiss`, or the
injected fault. -/
def Get (c : Client) (key : String) : Except Error Item × Client :=
  match c.pending with
  | some e => (.error e, c.record (.Get key))
  | none =>
    match c.items.lookup key with
    | some v => (.ok { Key := key, Value := v }, c.record (.Get key))
    | none => (.error .ErrCacheMiss, c.record (.Get key))

/-- Go `(*Client).Set`: writes the item unconditionally, unless a fault is
injected. -/
def Set (c : Client) (item : Item) : Option Error × Client :=
  match c.pending with
  | some e => (some e, c.record (.Set item.Key item.Value))
  | none =>
    (none, { c.record (.Set item.Key item.Value) with
              items := (item.Key, item.Value) :: without c.items item.Key })

/-- Go `(*Client).Delete`: removes the item under `key`; `ErrCacheMiss` when
there is none; or the injected fault. -/
def Delete (c : Client) (key : String) : Option Error × Client :=
  match c.pending with
  | some e => (some e, c.record (.Delete key))
  | none =>
    match c.items.lookup key with
    | some _ => (none, { c.record (.Delete key) with items := without c.items key })
    | none => (some .ErrCacheMiss, c.record (.Delete key))

/-- A reliable cache: no fault is injected into any call to come, so `Get`
misses exactly on absent keys and `Set` succeeds. -/
def reliable (c : Client) : Prop :=
  ∀ f ∈ c.faults, f = none

instance (c : Client) : Decidable c.reliable := by
  unfold reliable; infer_instance

end Client

end memcache

/-! ## `events.LambdaFunctionURLRequest` / `Response` -/

namespace events

structure LambdaFunctionURLRequestContextHTTPDescription where
  Method : String
  deriving DecidableEq, Repr

structure LambdaFunctionURLRequestContext where
  HTTP : LambdaFunctionURLRequestContextHTTPDescription
  deriving DecidableEq, Repr

/-- The request fields the handler reads.  `QueryStringParameters` is a Go
map; looking up a missing key gives the empty string. -/
structure LambdaFunctionURLRequest where
  RawPath : String
  QueryStringParameters : List (String × String)
  RequestContext : LambdaFunctionURLRequestContext
  deriving DecidableEq, Repr

structure LambdaFunctionURLResponse where
  StatusCode : Nat := 0
  Headers : List (String × String) := []
  Body : String := ""
  IsBase64Encoded : Bool := false
  Cookies : List String := []
  deriving DecidableEq, Repr

end events

open events

/-- Go map indexing `m[key]` on a `map[string]string`: the zero value `""`
when the key is missing. -/
def index (m : List (String × String)) (key : String) : String :=
  (m.lookup key).getD ""

/-- `ServerInfo` of `main.go`. -/
structure ServerInfo where
  API : String
  WS : String
  GRPC : String
  deriving DecidableEq, Repr

/-- The members `json.Marshal` writes for a `ServerInfo`, by its field tags. -/
def ServerInfo.members (s : ServerInfo) : List (String × String) :=
  [("api", s.API), ("ws", s.WS), ("grpc", s.GRPC)]

/-- What a handler returns: the response, the Go `error` (`none` is `nil`) and
the client after the calls made. -/
structure Outcome where
  response : LambdaFunctionURLResponse
  err : Option String
  client : memcache.Client
  deriving DecidableEq, Repr

/-- `getServerInfo` of `main.go`. -/
def getServerInfo (memcachedClient : memcache.Client) (key : String) : Outcome :=
  match memcachedClient.Get key with
  | (.error _, c) => ⟨{ StatusCode := http.StatusNotFound }, none, c⟩
  | (.ok item, c) =>
    ⟨{ Body := item.Value,
       StatusCode := http.StatusOK,
       Headers := [("Content-Type", "application/json")] }, none, c⟩

/-- `updateServerInfo` of `main.go`. -/
def updateServerInfo (memcachedClient : memcache.Client) (key : String)
    (r : LambdaFunctionURLRequest) : Outcome :=
  let serverInfo : ServerInfo :=
    { API := index r.QueryStringParameters "api",
      WS := index r.QueryStringParameters "ws",
      GRPC := index r.QueryStringParameters "grpc" }
  match json.Marshal serverInfo.members with
  | .error _ =>
    ⟨{ StatusCode := http.StatusInternalServerError }, some "failed to marshal json",
      memcachedClient⟩
  | .ok jsonResponse =>
    let item : memcache.Item := { Key := key, Value := jsonResponse }
    match memcachedClient.Set item with
    | (some _, c) =>
      ⟨{ StatusCode := http.StatusInternalServerError }, some "failed to set item to cache", c⟩
    | (none, c) => ⟨{ StatusCode := http.StatusNoContent }, none, c⟩

/-- `deleteServerInfo` of `main.go`. -/
def deleteServerInfo (memcachedClient : memcache.Client) (key : String) : Outcome :=
  match memcachedClient.Delete key with
  | (some _, c) => ⟨{ StatusCode := http.StatusNotFound }, none, c⟩
  | (none, c) => ⟨{ StatusCode := http.StatusNoContent }, none, c⟩

/-- `handleRequest` of `main.go`. -/
def handleRequest (memcachedClient : memcache.Client) (request : LambdaFunctionURLRequest) :
    Outcome :=
  let parts := strings.Split request.RawPath '/'
  if parts.length < 2 then
    ⟨{ StatusCode := http.StatusNotFound }, none, memcachedClient⟩
  else
    let key := parts.getD 1 ""
    if request.RequestContext.HTTP.Method = http.MethodGet then
      getServerInfo memcachedClient key
    else if request.RequestContext.HTTP.Method = http.MethodPost then
      match memcachedClient.Get key with
      | (.error _, c) =>
        match json.Marshal
            [("message", "Record already exists. Use PATCH method to update")] with
        | .error _ =>
          ⟨{ StatusCode := http.StatusInternalServerError }, some "failed to marshal json", c⟩
        | .ok body => ⟨{ StatusCode := http.StatusForbidden, Body := body }, none, c⟩
      | (.ok _, c) => updateServerInfo c key request
    else if request.RequestContext.HTTP.Method = http.MethodPatch then
      updateServerInfo memcachedClient key request
    else if request.RequestContext.HTTP.Method = http.MethodDelete then
      deleteServerInfo memcachedClient key
    else
      ⟨{ StatusCode := http.StatusMethodNotAllowed }, none, memcachedClient⟩

/-! ## Requests used in the statements -/

/-- A request with the given method, path and query parameters. -/
def mkRequest (method path : String) (q : List (String × String)) : LambdaFunctionURLRequest :=
  { RawPath := path, QueryStringParameters := q, RequestContext := { HTTP := { Method := method } } }

/-- The message body of the conflict response. -/
def conflictBody : String :=
  "\x7b\"message\":\"Record already exists. Use PATCH method to update\"\x7d"

/-- The payload `updateServerInfo` writes for the query parameters `q`. -/
def payload (q : List (String × String)) : String :=
  json.object [("api", index q "api"), ("ws", index q "ws"), ("grpc", index q "grpc")]

/-- Reads a stored value as a JSON object with exactly the string members
`api`, `ws`, `grpc`, in this order and without white space: the record it
denotes, or `none` when the value is not of this shape. -/
def parseServerInfo (v : String) : Option ServerInfo := do
  let r1 ← json.expect "\x7b\"api\":".data v.data
  let (a, r2) ← json.readLiteral r1
  let r3 ← json.expect ",\"ws\":".data r2
  let (w, r4) ← json.readLiteral r3
  let r5 ← json.expect ",\"grpc\":".data r4
  let (g, r6) ← json.readLiteral r5
  if r6 = [Char.ofNat 125] then some { API := String.mk a, WS := String.mk w, GRPC := String.mk g }
  else none

/-- A value of the shape `{api, ws, grpc}` with three string members. -/
def isServerInfoJSON (v : String) : Bool :=
  (parseServerInfo v).isSome

/-- Every record the cache holds (every key with the value `lookup` finds for
it) has a value of the shape `{api, ws, grpc}`. -/
def storeValid (items : List (String × String)) : Prop :=
  ∀ p ∈ items, items.lookup p.1 = some p.2 → isServerInfoJSON p.2 = true

instance (items : List (String × String)) : Decidable (storeValid items) := by
  unfold storeValid; infer_instance

/-- The key `handleRequest` takes from the request: `parts[1]`, the second
element of the path split on `/`. -/
def requestKey (request : LambdaFunctionURLRequest) : String :=
  (strings.Split request.RawPath '/').getD 1 ""

/-- The key in the words of the specification: "the first non-empty segment
following the leading separator", if the path has one. -/
def firstNonEmptySegment (path : String) : Option String :=
  (strings.Split path '/').tail.find? (fun s => s != "")

/-- The first segment of `k`: what `handleRequest` takes as the key of the
path `"/" ++ k`.  It is `k` itself when `k` has no `/`. -/
def firstSegment (k : String) : String :=
  (strings.Split k '/').headD ""

/-! ## Lemmas on `strings.Split` and key extraction -/

theorem splitChars_ne_nil (sep : Char) (cs : List Char) : strings.splitChars sep cs ≠ [] := by
  induction cs with
  | nil => simp [strings.splitChars]
  | cons c cs ih =>
    unfold strings.splitChars
    split
    · simp
    · split
      · simp
      · simp

theorem splitChars_of_not_mem (sep : Char) (cs : List Char) (h : sep ∉ cs) :
    strings.splitChars sep cs = [cs] := by
  induction cs with
  | nil => rfl
  | cons c cs ih =>
    have hc : c ≠ sep := fun e => h (by simp [e])
    have hcs : sep ∉ cs := fun e => h (by simp [e])
    simp [strings.splitChars, hc, ih hcs]

theorem Split_slash (k : String) :
    strings.Split ("/" ++ k) '/' = "" :: strings.Split k '/' := by
  simp [strings.Split, strings.splitChars]

theorem firstSegment_eq (k : String) (h : '/' ∉ k.data) : firstSegment k = k := by
  simp [firstSegment, strings.Split, splitChars_of_not_mem _ _ h]

theorem Split_slash_getD (k : String) :
    (strings.Split ("/" ++ k) '/').getD 1 "" = firstSegment k := by
  rw [Split_slash]
  simp [firstSegment]
  cases h : strings.Split k '/' with
  | nil => simp
  | cons a as => simp

theorem Split_slash_length (k : String) : ¬ (strings.Split ("/" ++ k) '/').length < 2 := by
  rw [Split_slash]
  have : strings.Split k '/' ≠ [] := by
    simp [strings.Split, splitChars_ne_nil]
  cases h : strings.Split k '/' with
  | nil => exact absurd h this
  | cons a as => simp

/-! ## `handleRequest` on the path `"/" ++ k`, method by method -/

theorem handleRequest_get (mc : memcache.Client) (k : String) (q : List (String × String)) :
    handleRequest mc (mkRequest "GET" ("/" ++ k) q) = getServerInfo mc (firstSegment k) := by
  unfold handleRequest
  simp only [mkRequest]
  rw [if_neg (Split_slash_length k), Split_slash_getD]
  simp [http.MethodGet, http.MethodPost, http.MethodPatch, http.MethodDelete]

theorem handleRequest_patch (mc : memcache.Client) (k : String) (q : List (String × String)) :
    handleRequest mc (mkRequest "PATCH" ("/" ++ k) q)
      = updateServerInfo mc (firstSegment k) (mkRequest "PATCH" ("/" ++ k) q) := by
  unfold handleRequest
  simp only [mkRequest]
  rw [if_neg (Split_slash_length k), Split_slash_getD]
  simp [http.MethodGet, http.MethodPost, http.MethodPatch, http.MethodDelete]

theorem handleRequest_delete (mc : memcache.Client) (k : String) (q : List (String × String)) :
    handleRequest mc (mkRequest "DELETE" ("/" ++ k) q) = deleteServerInfo mc (firstSegment k) := by
  unfold handleRequest
  simp only [mkRequest]
  rw [if_neg (Split_slash_length k), Split_slash_getD]
  simp [http.MethodGet, http.MethodPost, http.MethodPatch, http.MethodDelete]

/-! ## The cache model -/

theorem pending_of_reliable (c : memcache.Client) (h : c.reliable) : c.pending = none := by
  unfold memcache.Client.pending
  split
  · rename_i e _ heq
    have := h (some e) (by simp [heq])
    simp at this
  · rfl

theorem reliable_tail (c : memcache.Client) (items : List (String × String))
    (calls : List memcache.Call) (h : c.reliable) :
    memcache.Client.reliable ⟨items, c.faults.tail, calls⟩ := by
  intro f hf
  exact h f (List.mem_of_mem_tail hf)

theorem lookup_without (items : List (String × String)) (k : String) :
    (memcache.Client.without items k).lookup k = none := by
  induction items with
  | nil => rfl
  | cons p ps ih =>
    obtain ⟨a, b⟩ := p
    unfold memcache.Client.without at ih ⊢
    by_cases hp : a = k
    · rw [List.filter_cons_of_neg (by simp [hp])]
      exact ih
    · rw [List.filter_cons_of_pos (by simp [hp])]
      have hk : (k == a) = false := by simp [Ne.symm hp]
      simp only [List.lookup, hk]
      exact ih

theorem without_of_lookup_none (items : List (String × String)) (k : String)
    (h : items.lookup k = none) : memcache.Client.without items k = items := by
  induction items with
  | nil => rfl
  | cons p ps ih =>
    obtain ⟨a, b⟩ := p
    unfold memcache.Client.without at ih ⊢
    by_cases hp : k = a
    · simp [List.lookup, hp] at h
    · have hk : (k == a) = false := by simp [hp]
      simp only [List.lookup, hk] at h
      rw [List.filter_cons_of_pos (by simp [Ne.symm hp]), ih h]

theorem without_without (items : List (String × String)) (k : String) :
    memcache.Client.without (memcache.Client.without items k) k
      = memcache.Client.without items k := by
  simp [memcache.Client.without]

/-! ## The handlers in terms of the cache -/

theorem getServerInfo_found (mc : memcache.Client) (k v : String)
    (h : (mc.Get k).1 = .ok { Key := k, Value := v }) :
    getServerInfo mc k
      = ⟨{ StatusCode := 200, Body := v, Headers := [("Content-Type", "application/json")] },
          none, ⟨mc.items, mc.faults.tail, mc.calls ++ [.Get k]⟩⟩ := by
  unfold getServerInfo
  unfold memcache.Client.Get at h ⊢
  cases hp : mc.pending with
  | some e => simp [hp] at h
  | none =>
    cases hl : mc.items.lookup k with
    | none => simp [hp, hl] at h
    | some v' =>
      simp [hp, hl] at h
      simp [hp, hl, h, http.StatusOK, memcache.Client.record]

theorem getServerInfo_error (mc : memcache.Client) (k : String) (e : memcache.Error)
    (h : (mc.Get k).1 = .error e) :
    getServerInfo mc k
      = ⟨{ StatusCode := 404 }, none, ⟨mc.items, mc.faults.tail, mc.calls ++ [.Get k]⟩⟩ := by
  unfold getServerInfo
  unfold memcache.Client.Get at h ⊢
  cases hp : mc.pending with
  | some e => simp [hp, http.StatusNotFound, memcache.Client.record]
  | none =>
    cases hl : mc.items.lookup k with
    | none => simp [hp, hl, http.StatusNotFound, memcache.Client.record]
    | some v' => simp [hp, hl] at h

theorem Get_of_lookup_none (mc : memcache.Client) (k : String) (h : mc.items.lookup k = none) :
    ∃ e, (mc.Get k).1 = .error e := by
  unfold memcache.Client.Get
  cases hp : mc.pending with
  | some e => exact ⟨e, by simp⟩
  | none => exact ⟨.ErrCacheMiss, by simp [h]⟩

theorem Get_of_reliable (mc : memcache.Client) (k v : String) (hrel : mc.reliable)
    (h : mc.items.lookup k = some v) : (mc.Get k).1 = .ok { Key := k, Value := v } := by
  simp [memcache.Client.Get, pending_of_reliable mc hrel, h]

theorem updateServerInfo_ok (mc : memcache.Client) (k : String) (r : LambdaFunctionURLRequest)
    (h : mc.pending = none) :
    updateServerInfo mc k r
      = ⟨{ StatusCode := 204 }, none,
          ⟨(k, payload r.QueryStringParameters) :: memcache.Client.without mc.items k,
            mc.faults.tail, mc.calls ++ [.Set k (payload r.QueryStringParameters)]⟩⟩ := by
  simp [updateServerInfo, json.Marshal, ServerInfo.members, memcache.Client.Set, h, payload,
    http.StatusNoContent, memcache.Client.record]

theorem updateServerInfo_fault (mc : memcache.Client) (k : String) (r : LambdaFunctionURLRequest)
    (e : memcache.Error) (h : mc.pending = some e) :
    updateServerInfo mc k r
      = ⟨{ StatusCode := 500 }, some "failed to set item to cache",
          ⟨mc.items, mc.faults.tail, mc.calls ++ [.Set k (payload r.QueryStringParameters)]⟩⟩ := by
  simp [updateServerInfo, json.Marshal, ServerInfo.members, memcache.Client.Set, h, payload,
    http.StatusInternalServerError, memcache.Client.record]

theorem deleteServerInfo_ok (mc : memcache.Client) (k v : String) (h : mc.pending = none)
    (hl : mc.items.lookup k = some v) :
    deleteServerInfo mc k
      = ⟨{ StatusCode := 204 }, none,
          ⟨memcache.Client.without mc.items k, mc.faults.tail, mc.calls ++ [.Delete k]⟩⟩ := by
  simp [deleteServerInfo, memcache.Client.Delete, h, hl, http.StatusNoContent, memcache.Client.record]

theorem deleteServerInfo_error (mc : memcache.Client) (k : String) (e : memcache.Error)
    (h : (mc.Delete k).1 = some e) :
    deleteServerInfo mc k
      = ⟨{ StatusCode := 404 }, none, ⟨mc.items, mc.faults.tail, mc.calls ++ [.Delete k]⟩⟩ := by
  unfold deleteServerInfo
  unfold memcache.Client.Delete at h ⊢
  cases hp : mc.pending with
  | some e => simp [hp, http.StatusNotFound, memcache.Client.record]
  | none =>
    cases hl : mc.items.lookup k with
    | none => simp [hp, hl, http.StatusNotFound, memcache.Client.record]
    | some v' => simp [hp, hl] at h

theorem Delete_of_lookup_none (mc : memcache.Client) (k : String)
    (h : mc.items.lookup k = none) : ∃ e, (mc.Delete k).1 = some e := by
  unfold memcache.Client.Delete
  cases hp : mc.pending with
  | some e => exact ⟨e, by simp⟩
  | none => exact ⟨.ErrCacheMiss, by simp [h]⟩

/-! ## The JSON encoder on strings that need no escaping -/

theorem flatMap_appendChar_of_safe (cs : List Char) (h : ∀ c ∈ cs, json.htmlSafe c = true) :
    cs.flatMap json.appendChar = cs := by
  induction cs with
  | nil => rfl
  | cons c cs ih =>
    have hc : json.htmlSafe c = true := h c (by simp)
    have hcs : ∀ d ∈ cs, json.htmlSafe d = true := fun d hd => h d (by simp [hd])
    simp [List.flatMap_cons, json.appendChar, hc, ih hcs]

theorem appendString_of_safe (s : String) (h : ∀ c ∈ s.data, json.htmlSafe c = true) :
    json.appendString s = "\"" ++ s ++ "\"" := by
  unfold json.appendString
  rw [flatMap_appendChar_of_safe s.data h]
  apply String.ext
  simp [json.quote]

theorem payload_eq (q : List (String × String)) :
    payload q
      = "\x7b\"api\":" ++ json.appendString (index q "api")
        ++ ",\"ws\":" ++ json.appendString (index q "ws")
        ++ ",\"grpc\":" ++ json.appendString (index q "grpc") ++ "\x7d" := by
  apply String.ext
  simp [payload, json.object, json.member, String.intercalate, String.intercalate.go,
    json.appendString, json.appendChar, json.htmlSafe, json.quote]

/-! ## Requests on a reliable cache -/

theorem patch_reliable (mc : memcache.Client) (k : String) (q : List (String × String))
    (hrel : mc.reliable) :
    handleRequest mc (mkRequest "PATCH" ("/" ++ k) q)
      = ⟨{ StatusCode := 204 }, none,
          ⟨(firstSegment k, payload q) :: memcache.Client.without mc.items (firstSegment k),
            mc.faults.tail, mc.calls ++ [.Set (firstSegment k) (payload q)]⟩⟩ := by
  rw [handleRequest_patch, updateServerInfo_ok mc _ _ (pending_of_reliable mc hrel)]
  rfl

theorem get_reliable_found (mc : memcache.Client) (k v : String) (q : List (String × String))
    (hrel : mc.reliable) (h : mc.items.lookup (firstSegment k) = some v) :
    handleRequest mc (mkRequest "GET" ("/" ++ k) q)
      = ⟨{ StatusCode := 200, Body := v, Headers := [("Content-Type", "application/json")] },
          none, ⟨mc.items, mc.faults.tail, mc.calls ++ [.Get (firstSegment k)]⟩⟩ := by
  rw [handleRequest_get, getServerInfo_found mc _ v (Get_of_reliable mc _ _ hrel h)]

theorem get_absent (mc : memcache.Client) (k : String) (q : List (String × String))
    (h : mc.items.lookup (firstSegment k) = none) :
    handleRequest mc (mkRequest "GET" ("/" ++ k) q)
      = ⟨{ StatusCode := 404 }, none,
          ⟨mc.items, mc.faults.tail, mc.calls ++ [.Get (firstSegment k)]⟩⟩ := by
  obtain ⟨e, he⟩ := Get_of_lookup_none mc _ h
  rw [handleRequest_get, getServerInfo_error mc _ e he]

theorem delete_absent (mc : memcache.Client) (k : String) (q : List (String × String))
    (h : mc.items.lookup (firstSegment k) = none) :
    handleRequest mc (mkRequest "DELETE" ("/" ++ k) q)
      = ⟨{ StatusCode := 404 }, none,
          ⟨mc.items, mc.faults.tail, mc.calls ++ [.Delete (firstSegment k)]⟩⟩ := by
  obtain ⟨e, he⟩ := Delete_of_lookup_none mc _ h
  rw [handleRequest_delete, deleteServerInfo_error mc _ e he]

theorem delete_reliable_found (mc : memcache.Client) (k v : String) (q : List (String × String))
    (hrel : mc.reliable) (h : mc.items.lookup (firstSegment k) = some v) :
    handleRequest mc (mkRequest "DELETE" ("/" ++ k) q)
      = ⟨{ StatusCode := 204 }, none,
          ⟨memcache.Client.without mc.items (firstSegment k), mc.faults.tail,
            mc.calls ++ [.Delete (firstSegment k)]⟩⟩ := by
  rw [handleRequest_delete, deleteServerInfo_ok mc _ v (pending_of_reliable mc hrel) h]

theorem getServerInfo_status (mc : memcache.Client) (key : String) :
    (getServerInfo mc key).response.StatusCode = 200
    ∨ (getServerInfo mc key).response.StatusCode = 404 := by
  cases hg : (mc.Get key).1 with
  | error e => right; rw [getServerInfo_error mc key e hg]
  | ok item =>
    left
    unfold getServerInfo
    unfold memcache.Client.Get at hg ⊢
    cases hp : mc.pending with
    | some e => simp [hp] at hg
    | none =>
      cases hl : mc.items.lookup key with
      | none => simp [hp, hl] at hg
      | some v => simp [hp, hl, http.StatusOK]

theorem handleRequest_get_any (mc : memcache.Client) (path : String)
    (q : List (String × String)) :
    handleRequest mc (mkRequest "GET" path q)
      = if (strings.Split path '/').length < 2 then ⟨{ StatusCode := 404 }, none, mc⟩
        else getServerInfo mc ((strings.Split path '/').getD 1 "") := by
  simp only [handleRequest, mkRequest, http.MethodGet, if_true, http.StatusNotFound]

theorem lookup_cons_self (k v : String) (items : List (String × String)) :
    ((k, v) :: items).lookup k = some v := by
  simp [List.lookup]

theorem splitChars_length_of_mem (sep : Char) (cs : List Char) (h : sep ∈ cs) :
    2 ≤ (strings.splitChars sep cs).length := by
  induction cs with
  | nil => simp at h
  | cons c cs ih =>
    unfold strings.splitChars
    by_cases hc : c = sep
    · have hne := splitChars_ne_nil sep cs
      have hpos : 0 < (strings.splitChars sep cs).length := List.length_pos.mpr hne
      simp only [hc, if_true, List.length_cons]
      omega
    · have hmem : sep ∈ cs := by
        rcases List.mem_cons.mp h with h1 | h1
        · exact absurd h1.symm hc
        · exact h1
      have := ih hmem
      simp only [hc, if_false]
      cases hs : strings.splitChars sep cs with
      | nil => rw [hs] at this; simp at this
      | cons seg segs => rw [hs] at this; simpa using this

theorem Split_length_of_mem (path : String) (h : '/' ∈ path.data) :
    ¬ (strings.Split path '/').length < 2 := by
  have := splitChars_length_of_mem '/' path.data h
  simp only [strings.Split, List.length_map]
  omega

theorem Set_fault (mc : memcache.Client) (item : memcache.Item) (e : memcache.Error)
    (h : (mc.Set item).1 = some e) : mc.pending = some e := by
  unfold memcache.Client.Set at h
  cases hp : mc.pending with
  | some e' => simpa [hp] using h
  | none => simp [hp] at h

/-! ## An encoded string literal denotes the string it encodes -/

theorem hexVal_hex : ∀ m, m < 16 → json.hexVal (json.hex m) = some m := by decide

theorem char_eq_of_toNat (c : Char) (n : Nat) (h : c.toNat = n) : c = Char.ofNat n := by
  rw [← h, Char.ofNat_toNat]

theorem unescape_cons_plain (c : Char) (rest : List Char) (hq : c ≠ json.quote)
    (hb : c ≠ json.backslash) (hc : ¬ c.toNat < 32) :
    json.unescape (c :: rest) = (json.unescape rest).map (c :: ·) := by
  rw [json.unescape.eq_def]
  simp only [if_neg hq, if_neg hb, if_neg hc]
  cases json.unescape rest <;> rfl

theorem unescape_short (e d : Char) (rest : List Char) (he : e ≠ 'u')
    (hd : json.escapeChar e = some d) :
    json.unescape (json.backslash :: e :: rest) = (json.unescape rest).map (d :: ·) := by
  rw [json.unescape.eq_def]
  have h1 : json.backslash ≠ json.quote := by decide
  simp only [if_neg h1, if_true, if_neg he, hd]
  cases json.unescape rest <;> rfl

theorem unescape_hex (h1 h2 h3 h4 : Char) (d1 d2 d3 d4 : Nat) (rest : List Char)
    (e1 : json.hexVal h1 = some d1) (e2 : json.hexVal h2 = some d2)
    (e3 : json.hexVal h3 = some d3) (e4 : json.hexVal h4 = some d4) :
    json.unescape (json.backslash :: 'u' :: h1 :: h2 :: h3 :: h4 :: rest)
      = (json.unescape rest).map (Char.ofNat (((d1 * 16 + d2) * 16 + d3) * 16 + d4) :: ·) := by
  rw [json.unescape.eq_def]
  have hq : json.backslash ≠ json.quote := by decide
  simp only [if_neg hq, if_true, e1, e2, e3, e4]
  cases json.unescape rest <;> rfl

theorem htmlSafe_plain (c : Char) (hs : json.htmlSafe c = true) :
    c ≠ json.quote ∧ c ≠ json.backslash ∧ ¬ c.toNat < 32 := by
  refine ⟨?_, ?_, ?_⟩
  · intro h; rw [h] at hs; revert hs; decide
  · intro h; rw [h] at hs; revert hs; decide
  · intro h
    have h128 : c.toNat < 128 := by omega
    simp [json.htmlSafe, h128] at hs
    omega

theorem unescape_appendChar (c : Char) (rest : List Char) :
    json.unescape (json.appendChar c ++ rest) = (json.unescape rest).map (c :: ·) := by
  unfold json.appendChar
  by_cases hs : json.htmlSafe c = true
  · rw [if_pos hs]
    obtain ⟨hq, hb, hc⟩ := htmlSafe_plain c hs
    exact unescape_cons_plain c rest hq hb hc
  · rw [if_neg hs]
    by_cases h1 : c.toNat = 92 ∨ c.toNat = 34
    · rw [if_pos h1]
      rcases h1 with h1 | h1
      · have hc := char_eq_of_toNat c 92 h1
        subst hc
        exact unescape_short _ _ rest (by decide) (by decide)
      · have hc := char_eq_of_toNat c 34 h1
        subst hc
        exact unescape_short _ _ rest (by decide) (by decide)
    · rw [if_neg h1]
      by_cases h8 : c.toNat = 8
      · rw [if_pos h8, char_eq_of_toNat c 8 h8]
        exact unescape_short _ _ rest (by decide) (by decide)
      rw [if_neg h8]
      by_cases h12 : c.toNat = 12
      · rw [if_pos h12, char_eq_of_toNat c 12 h12]
        exact unescape_short _ _ rest (by decide) (by decide)
      rw [if_neg h12]
      by_cases h10 : c.toNat = 10
      · rw [if_pos h10, char_eq_of_toNat c 10 h10]
        exact unescape_short _ _ rest (by decide) (by decide)
      rw [if_neg h10]
      by_cases h13 : c.toNat = 13
      · rw [if_pos h13, char_eq_of_toNat c 13 h13]
        exact unescape_short _ _ rest (by decide) (by decide)
      rw [if_neg h13]
      by_cases h9 : c.toNat = 9
      · rw [if_pos h9, char_eq_of_toNat c 9 h9]
        exact unescape_short _ _ rest (by decide) (by decide)
      rw [if_neg h9]
      by_cases h128 : c.toNat < 128
      · rw [if_pos h128]
        have e0 : json.hexVal '0' = some 0 := by decide
        have e3 := hexVal_hex (c.toNat / 16) (by omega)
        have e4 := hexVal_hex (c.toNat % 16) (by omega)
        have := unescape_hex '0' '0' _ _ 0 0 _ _ rest e0 e0 e3 e4
        have hn : ((0 * 16 + 0) * 16 + c.toNat / 16) * 16 + c.toNat % 16 = c.toNat := by omega
        rw [hn, Char.ofNat_toNat] at this
        exact this
      · rw [if_neg h128]
        have hc : c.toNat = 8232 ∨ c.toNat = 8233 := by
          simp [json.htmlSafe, h128] at hs
          by_cases h : c.toNat = 8232
          · exact Or.inl h
          · exact Or.inr (hs h)
        rcases hc with hc | hc
        · rw [char_eq_of_toNat c _ hc]
          exact unescape_hex '2' '0' '2' _ 2 0 2 8 rest (by decide) (by decide) (by decide)
            (by decide)
        · rw [char_eq_of_toNat c _ hc]
          exact unescape_hex '2' '0' '2' _ 2 0 2 9 rest (by decide) (by decide) (by decide)
            (by decide)

theorem unescape_flatMap (cs : List Char) :
    json.unescape (cs.flatMap json.appendChar ++ [json.quote]) = some cs := by
  induction cs with
  | nil => simp [json.unescape]
  | cons c cs ih =>
    rw [List.flatMap_cons, List.append_assoc, unescape_appendChar, ih]
    rfl

theorem unquote_appendString (s : String) : json.unquote (json.appendString s) = some s := by
  simp [json.unquote, json.appendString, unescape_flatMap]

/-! ## Claims -/

/-- C1 (the code departs from the claim): on a reliable cache that already
holds `svc1`, `POST /svc1?api=x` is answered 204 with a nil error and the
stored value is overwritten with the new payload; it is not rejected with 403. -/
theorem post_existing_key_overwrites :
    handleRequest ⟨[("svc1", "old")], [], []⟩ (mkRequest "POST" "/svc1" [("api", "x")])
      = ⟨{ StatusCode := 204 }, none,
          ⟨[("svc1", "\x7b\"api\":\"x\",\"ws\":\"\",\"grpc\":\"\"\x7d")], [],
            [.Get "svc1",
             .Set "svc1" "\x7b\"api\":\"x\",\"ws\":\"\",\"grpc\":\"\"\x7d"]⟩⟩ := by
  decide

/-- C2 (the code departs from the claim): on a reliable empty cache,
`POST /svc1` with all three fields is answered 403 with the conflict message,
nothing is written, and the following `GET /svc1` is answered 404. -/
theorem post_absent_key_rejected :
    handleRequest ⟨[], [], []⟩
        (mkRequest "POST" "/svc1" [("api", "a"), ("ws", "w"), ("grpc", "g")])
      = ⟨{ StatusCode := 403, Body := conflictBody }, none, ⟨[], [], [.Get "svc1"]⟩⟩
    ∧ (handleRequest
        (handleRequest ⟨[], [], []⟩
          (mkRequest "POST" "/svc1" [("api", "a"), ("ws", "w"), ("grpc", "g")])).client
        (mkRequest "GET" "/svc1" [])).response = { StatusCode := 404 } := by
  decide

/-- C3: round trip.  On a reliable cache, `PATCH /k` with query parameters
`api = a`, `ws = w`, `grpc = g` is answered 204 with a nil error, and a `GET /k`
on the resulting cache is answered 200 with the header
`Content-Type: application/json` and the body
`{"api":A,"ws":W,"grpc":G}`, where `A`, `W`, `G` are the JSON string literals
the encoder writes for `a`, `w`, `g`, each of which denotes its string again;
when the encoder escapes no character of `a`, `w`, `g` the body is literally
`{"api":"a","ws":"w","grpc":"g"}`. -/
theorem patch_then_get_round_trip (mc : memcache.Client) (k a w g : String)
    (q q' : List (String × String)) (hrel : mc.reliable)
    (ha : q.lookup "api" = some a) (hw : q.lookup "ws" = some w)
    (hg : q.lookup "grpc" = some g) :
    (handleRequest mc (mkRequest "PATCH" ("/" ++ k) q)).response = { StatusCode := 204 }
    ∧ (handleRequest mc (mkRequest "PATCH" ("/" ++ k) q)).err = none
    ∧ (handleRequest (handleRequest mc (mkRequest "PATCH" ("/" ++ k) q)).client
        (mkRequest "GET" ("/" ++ k) q')).response
      = { StatusCode := 200,
          Headers := [("Content-Type", "application/json")],
          Body := "\x7b\"api\":" ++ json.appendString a ++ ",\"ws\":" ++ json.appendString w
            ++ ",\"grpc\":" ++ json.appendString g ++ "\x7d" }
    ∧ (handleRequest (handleRequest mc (mkRequest "PATCH" ("/" ++ k) q)).client
        (mkRequest "GET" ("/" ++ k) q')).err = none
    ∧ json.unquote (json.appendString a) = some a
    ∧ json.unquote (json.appendString w) = some w
    ∧ json.unquote (json.appendString g) = some g
    ∧ ((∀ c ∈ a.data ++ w.data ++ g.data, json.htmlSafe c = true) →
        (handleRequest (handleRequest mc (mkRequest "PATCH" ("/" ++ k) q)).client
          (mkRequest "GET" ("/" ++ k) q')).response.Body
        = "\x7b\"api\":\"" ++ a ++ "\",\"ws\":\"" ++ w ++ "\",\"grpc\":\"" ++ g
            ++ "\"\x7d") := by
  have hpay : payload q
      = "\x7b\"api\":" ++ json.appendString a ++ ",\"ws\":" ++ json.appendString w
            ++ ",\"grpc\":" ++ json.appendString g ++ "\x7d" := by
    rw [payload_eq]; simp [index, ha, hw, hg]
  rw [patch_reliable mc k q hrel]
  rw [get_reliable_found _ k (payload q) q' (reliable_tail mc _ _ hrel) (lookup_cons_self _ _ _)]
  simp only [hpay]
  refine ⟨trivial, trivial, trivial, trivial, unquote_appendString a, unquote_appendString w,
    unquote_appendString g, ?_⟩
  intro hsafe
  rw [appendString_of_safe a (fun c hc => hsafe c (by simp [hc])),
    appendString_of_safe w (fun c hc => hsafe c (by simp [hc])),
    appendString_of_safe g (fun c hc => hsafe c (by simp [hc]))]
  apply String.ext
  simp [List.append_assoc]

/-- C3, the scenario of the specification: `PATCH /svc1` with the three
example addresses on an empty reliable cache is answered 204, and `GET /svc1`
then returns the literal JSON object of the three addresses. -/
theorem patch_then_get_round_trip_witness :
    memcache.Client.reliable ⟨[], [], []⟩
    ∧ (handleRequest ⟨[], [], []⟩
        (mkRequest "PATCH" "/svc1"
          [("api", "a.example.com"), ("ws", "ws.example.com"), ("grpc", "grpc.example.com")])).response
      = { StatusCode := 204 }
    ∧ (handleRequest
        (handleRequest ⟨[], [], []⟩
          (mkRequest "PATCH" "/svc1"
            [("api", "a.example.com"), ("ws", "ws.example.com"),
              ("grpc", "grpc.example.com")])).client
        (mkRequest "GET" "/svc1" [])).response.Body
      = "\x7b\"api\":\"a.example.com\",\"ws\":\"ws.example.com\",\"grpc\":\"grpc.example.com\"\x7d" :=
  ⟨by decide,
   (patch_then_get_round_trip ⟨[], [], []⟩ "svc1" "a.example.com" "ws.example.com"
      "grpc.example.com"
      [("api", "a.example.com"), ("ws", "ws.example.com"), ("grpc", "grpc.example.com")] []
      (by decide) (by decide) (by decide) (by decide)).1,
   (patch_then_get_round_trip ⟨[], [], []⟩ "svc1" "a.example.com" "ws.example.com"
      "grpc.example.com"
      [("api", "a.example.com"), ("ws", "ws.example.com"), ("grpc", "grpc.example.com")] []
      (by decide) (by decide) (by decide) (by decide)).2.2.2.2.2.2.2 (by decide)⟩

/-- C4: for every key `k` (a path segment, so without `/`) that the cache
finds with stored bytes `v`, `GET /k` is answered 200 with body `v` verbatim,
the header `Content-Type: application/json` and a nil error; and for every
cache, path and query the status of a GET is 200 or 404. -/
theorem get_found_verbatim (mc : memcache.Client) (k v : String) (q : List (String × String))
    (hk : '/' ∉ k.data) (h : (mc.Get k).1 = .ok { Key := k, Value := v }) :
    (handleRequest mc (mkRequest "GET" ("/" ++ k) q)).response
      = { StatusCode := 200, Body := v, Headers := [("Content-Type", "application/json")] }
    ∧ (handleRequest mc (mkRequest "GET" ("/" ++ k) q)).err = none
    ∧ ∀ (mc' : memcache.Client) (path : String) (q' : List (String × String)),
        (handleRequest mc' (mkRequest "GET" path q')).response.StatusCode = 200
        ∨ (handleRequest mc' (mkRequest "GET" path q')).response.StatusCode = 404 := by
  rw [handleRequest_get, firstSegment_eq k hk, getServerInfo_found mc k v h]
  refine ⟨rfl, rfl, ?_⟩
  intro mc' path q'
  rw [handleRequest_get_any]
  split
  · right; rfl
  · exact getServerInfo_status mc' _

/-- C4 on a cache that holds `svc1`. -/
theorem get_found_verbatim_witness :
    '/' ∉ "svc1".data
    ∧ (memcache.Client.Get ⟨[("svc1", "not json")], [], []⟩ "svc1").1
        = .ok { Key := "svc1", Value := "not json" }
    ∧ (handleRequest ⟨[("svc1", "not json")], [], []⟩ (mkRequest "GET" "/svc1" [])).response
      = { StatusCode := 200, Body := "not json",
          Headers := [("Content-Type", "application/json")] } :=
  ⟨by decide, rfl,
   (get_found_verbatim ⟨[("svc1", "not json")], [], []⟩ "svc1" "not json" []
      (by decide) rfl).1⟩

/-- C5: for every key `k` (a path segment) absent from the cache, `GET /k`
and `DELETE /k` are both answered 404 with an empty body and a nil error, and
the records of the cache are unchanged. -/
theorem absent_key_not_found (mc : memcache.Client) (k : String) (q : List (String × String))
    (hk : '/' ∉ k.data) (h : mc.items.lookup k = none) :
    (handleRequest mc (mkRequest "GET" ("/" ++ k) q)).response = { StatusCode := 404, Body := "" }
    ∧ (handleRequest mc (mkRequest "GET" ("/" ++ k) q)).err = none
    ∧ (handleRequest mc (mkRequest "GET" ("/" ++ k) q)).client.items = mc.items
    ∧ (handleRequest mc (mkRequest "DELETE" ("/" ++ k) q)).response
        = { StatusCode := 404, Body := "" }
    ∧ (handleRequest mc (mkRequest "DELETE" ("/" ++ k) q)).err = none
    ∧ (handleRequest mc (mkRequest "DELETE" ("/" ++ k) q)).client.items = mc.items := by
  have h' : mc.items.lookup (firstSegment k) = none := by rw [firstSegment_eq k hk]; exact h
  rw [get_absent mc k q h', delete_absent mc k q h']
  exact ⟨rfl, rfl, rfl, rfl, rfl, rfl⟩

/-- C5 on a cache that holds another key and has a fault pending. -/
theorem absent_key_not_found_witness :
    '/' ∉ "svc2".data
    ∧ List.lookup "svc2" [("svc1", "v")] = none
    ∧ (handleRequest ⟨[("svc1", "v")], [some .ErrTimeout], []⟩
        (mkRequest "DELETE" "/svc2" [])).response = { StatusCode := 404, Body := "" } :=
  ⟨by decide, by decide,
   (absent_key_not_found ⟨[("svc1", "v")], [some .ErrTimeout], []⟩ "svc2" []
      (by decide) (by decide)).2.2.2.1⟩

/-- C6: on a reliable cache that holds the key `k` (a path segment),
`DELETE /k` is answered 204 with an empty body and a nil error, and a
following `GET /k` is answered 404. -/
theorem delete_then_get_not_found (mc : memcache.Client) (k v : String)
    (q q' : List (String × String)) (hk : '/' ∉ k.data) (hrel : mc.reliable)
    (h : mc.items.lookup k = some v) :
    (handleRequest mc (mkRequest "DELETE" ("/" ++ k) q)).response
      = { StatusCode := 204, Body := "" }
    ∧ (handleRequest mc (mkRequest "DELETE" ("/" ++ k) q)).err = none
    ∧ (handleRequest (handleRequest mc (mkRequest "DELETE" ("/" ++ k) q)).client
        (mkRequest "GET" ("/" ++ k) q')).response = { StatusCode := 404 } := by
  have h' : mc.items.lookup (firstSegment k) = some v := by rw [firstSegment_eq k hk]; exact h
  rw [delete_reliable_found mc k v q hrel h']
  refine ⟨rfl, rfl, ?_⟩
  rw [get_absent _ k q' (lookup_without _ _)]

/-- C6 after a successful update: `PATCH /svc1`, then `DELETE /svc1` (204),
then `GET /svc1` (404). -/
theorem delete_then_get_not_found_witness :
    '/' ∉ "svc1".data
    ∧ (handleRequest ⟨[], [], []⟩ (mkRequest "PATCH" "/svc1" [("api", "x")])).client.reliable
    ∧ ((handleRequest ⟨[], [], []⟩ (mkRequest "PATCH" "/svc1" [("api", "x")])).client.items.lookup
        "svc1") = some "\x7b\"api\":\"x\",\"ws\":\"\",\"grpc\":\"\"\x7d"
    ∧ (handleRequest
        (handleRequest ⟨[], [], []⟩ (mkRequest "PATCH" "/svc1" [("api", "x")])).client
        (mkRequest "DELETE" "/svc1" [])).response = { StatusCode := 204, Body := "" }
    ∧ (handleRequest
        (handleRequest
          (handleRequest ⟨[], [], []⟩ (mkRequest "PATCH" "/svc1" [("api", "x")])).client
          (mkRequest "DELETE" "/svc1" [])).client
        (mkRequest "GET" "/svc1" [])).response = { StatusCode := 404 } :=
  ⟨by decide, by decide, by decide,
   (delete_then_get_not_found
      (handleRequest ⟨[], [], []⟩ (mkRequest "PATCH" "/svc1" [("api", "x")])).client "svc1"
      "\x7b\"api\":\"x\",\"ws\":\"\",\"grpc\":\"\"\x7d" [] []
      (by decide) (by decide) (by decide)).1,
   (delete_then_get_not_found
      (handleRequest ⟨[], [], []⟩ (mkRequest "PATCH" "/svc1" [("api", "x")])).client "svc1"
      "\x7b\"api\":\"x\",\"ws\":\"\",\"grpc\":\"\"\x7d" [] []
      (by decide) (by decide) (by decide)).2.2⟩

/-- C7: PATCH is idempotent.  On a reliable cache, `PATCH /k` with query
parameters `q` applied twice is answered 204 both times, leaves the same
records as applying it once, and hence the same response to a final `GET /k`. -/
theorem patch_idempotent (mc : memcache.Client) (k : String) (q q' : List (String × String))
    (hrel : mc.reliable) :
    (handleRequest mc (mkRequest "PATCH" ("/" ++ k) q)).response = { StatusCode := 204 }
    ∧ (handleRequest (handleRequest mc (mkRequest "PATCH" ("/" ++ k) q)).client
        (mkRequest "PATCH" ("/" ++ k) q)).response = { StatusCode := 204 }
    ∧ (handleRequest (handleRequest mc (mkRequest "PATCH" ("/" ++ k) q)).client
        (mkRequest "PATCH" ("/" ++ k) q)).client.items
      = (handleRequest mc (mkRequest "PATCH" ("/" ++ k) q)).client.items
    ∧ (handleRequest
        (handleRequest (handleRequest mc (mkRequest "PATCH" ("/" ++ k) q)).client
          (mkRequest "PATCH" ("/" ++ k) q)).client
        (mkRequest "GET" ("/" ++ k) q')).response
      = (handleRequest (handleRequest mc (mkRequest "PATCH" ("/" ++ k) q)).client
          (mkRequest "GET" ("/" ++ k) q')).response := by
  rw [patch_reliable mc k q hrel]
  have hrel1 := reliable_tail mc
    ((firstSegment k, payload q) :: memcache.Client.without mc.items (firstSegment k))
    (mc.calls ++ [.Set (firstSegment k) (payload q)]) hrel
  rw [patch_reliable _ k q hrel1]
  refine ⟨rfl, rfl, ?_, ?_⟩
  · simp [memcache.Client.without]
  · rw [get_reliable_found _ k (payload q) q' (reliable_tail _ _ _ hrel1) (lookup_cons_self _ _ _),
      get_reliable_found _ k (payload q) q' hrel1 (lookup_cons_self _ _ _)]

/-- C7 on a cache that already holds a different value under `svc1`. -/
theorem patch_idempotent_witness :
    memcache.Client.reliable ⟨[("svc1", "old")], [none, none], []⟩
    ∧ (handleRequest
        (handleRequest ⟨[("svc1", "old")], [none, none], []⟩
          (mkRequest "PATCH" "/svc1" [("ws", "w")])).client
        (mkRequest "PATCH" "/svc1" [("ws", "w")])).client.items
      = (handleRequest ⟨[("svc1", "old")], [none, none], []⟩
          (mkRequest "PATCH" "/svc1" [("ws", "w")])).client.items :=
  ⟨by decide,
   (patch_idempotent ⟨[("svc1", "old")], [none, none], []⟩ "svc1" [("ws", "w")] []
      (by decide)).2.2.1⟩

/-- C8 (the code departs from the claim): the path `/` splits into two empty
segments, so the guard on the number of segments does not fire and the request
is dispatched with the empty key.  On an empty reliable cache `PUT /` is
answered 405, `GET /` issues `Get ""`, and `PATCH /?api=x` is answered 204
after writing a record under the empty key. -/
theorem root_path_is_dispatched :
    strings.Split "/" '/' = ["", ""]
    ∧ (handleRequest ⟨[], [], []⟩ (mkRequest "PUT" "/" [])).response = { StatusCode := 405 }
    ∧ (handleRequest ⟨[], [], []⟩ (mkRequest "GET" "/" [])).client.calls = [.Get ""]
    ∧ handleRequest ⟨[], [], []⟩ (mkRequest "PATCH" "/" [("api", "x")])
      = ⟨{ StatusCode := 204 }, none,
          ⟨[("", "\x7b\"api\":\"x\",\"ws\":\"\",\"grpc\":\"\"\x7d")], [],
            [.Set "" "\x7b\"api\":\"x\",\"ws\":\"\",\"grpc\":\"\"\x7d"]⟩⟩ := by
  decide

/-- C9 as stated fails: the method `PUT` is none of GET, POST, PATCH, DELETE,
and on the empty path (which has no `/`) the request is answered 404, not 405. -/
theorem unknown_method_on_empty_path_is_404 :
    "PUT" ≠ http.MethodGet ∧ "PUT" ≠ http.MethodPost ∧ "PUT" ≠ http.MethodPatch
    ∧ "PUT" ≠ http.MethodDelete
    ∧ (handleRequest ⟨[], [], []⟩ (mkRequest "PUT" "" [])).response = { StatusCode := 404 } := by
  decide

theorem Split_length_of_key (path : String)
    (h : (strings.Split path '/').getD 1 "" ≠ "") : ¬ (strings.Split path '/').length < 2 := by
  cases hs : strings.Split path '/' with
  | nil => rw [hs] at h; simp at h
  | cons p0 ps =>
    cases ps with
    | nil => rw [hs] at h; simp at h
    | cons p1 rest => simp

/-- C9 amended: for every request whose method is none of GET, POST, PATCH,
DELETE and whose path has a key (the second element of the path split on `/`
is not empty), `handleRequest` answers 405 with an empty body and a nil error
and makes no call to the cache (the client is returned as it was). -/
theorem unknown_method_is_405 (mc : memcache.Client) (request : LambdaFunctionURLRequest)
    (hget : request.RequestContext.HTTP.Method ≠ http.MethodGet)
    (hpost : request.RequestContext.HTTP.Method ≠ http.MethodPost)
    (hpatch : request.RequestContext.HTTP.Method ≠ http.MethodPatch)
    (hdelete : request.RequestContext.HTTP.Method ≠ http.MethodDelete)
    (hpath : (strings.Split request.RawPath '/').getD 1 "" ≠ "") :
    handleRequest mc request = ⟨{ StatusCode := 405, Body := "" }, none, mc⟩ := by
  unfold handleRequest
  simp only [if_neg (Split_length_of_key _ hpath), if_neg hget, if_neg hpost, if_neg hpatch,
    if_neg hdelete]
  rfl

/-- C9 amended, on `PUT /svc1/extra` against a cache with a record and a
pending fault. -/
theorem unknown_method_is_405_witness :
    (strings.Split "/svc1/extra" '/').getD 1 "" ≠ ""
    ∧ handleRequest ⟨[("svc1", "v")], [some .ErrTimeout], []⟩ (mkRequest "PUT" "/svc1/extra" [])
      = ⟨{ StatusCode := 405, Body := "" }, none, ⟨[("svc1", "v")], [some .ErrTimeout], []⟩⟩ :=
  ⟨by decide,
   unknown_method_is_405 ⟨[("svc1", "v")], [some .ErrTimeout], []⟩
      (mkRequest "PUT" "/svc1/extra" []) (by decide) (by decide) (by decide) (by decide)
      (by decide)⟩

/-- C10 as stated fails: when `Get` fails with a server error (not "not
found") on a key the cache holds, `GET /svc1` is answered 404 with a nil
error, not 500 with an error. -/
theorem get_server_error_is_404 :
    (memcache.Client.Get ⟨[("svc1", "v")], [some .ErrServerError], []⟩ "svc1").1
      = .error .ErrServerError
    ∧ (handleRequest ⟨[("svc1", "v")], [some .ErrServerError], []⟩
        (mkRequest "GET" "/svc1" [])).response = { StatusCode := 404 }
    ∧ (handleRequest ⟨[("svc1", "v")], [some .ErrServerError], []⟩
        (mkRequest "GET" "/svc1" [])).err = none := by
  refine ⟨rfl, ?_, ?_⟩ <;> decide

/-- C10 amended: only a failed `Set` is surfaced.  For every key `k` (a path
segment): when `Get` fails with any error, `GET /k` is answered 404 with a nil
error; when `Delete` fails with any error, `DELETE /k` is answered 404 with a
nil error; when `Set` fails with any error, `PATCH /k` is answered 500 with
the error "failed to set item to cache". -/
theorem store_failure_responses (mcG mcD mcS : memcache.Client) (k : String)
    (q : List (String × String)) (eG eD eS : memcache.Error) (hk : '/' ∉ k.data)
    (hG : (mcG.Get k).1 = .error eG) (hD : (mcD.Delete k).1 = some eD)
    (hS : (mcS.Set { Key := k, Value := payload q }).1 = some eS) :
    (handleRequest mcG (mkRequest "GET" ("/" ++ k) q)).response = { StatusCode := 404 }
    ∧ (handleRequest mcG (mkRequest "GET" ("/" ++ k) q)).err = none
    ∧ (handleRequest mcD (mkRequest "DELETE" ("/" ++ k) q)).response = { StatusCode := 404 }
    ∧ (handleRequest mcD (mkRequest "DELETE" ("/" ++ k) q)).err = none
    ∧ (handleRequest mcS (mkRequest "PATCH" ("/" ++ k) q)).response = { StatusCode := 500 }
    ∧ (handleRequest mcS (mkRequest "PATCH" ("/" ++ k) q)).err
        = some "failed to set item to cache" := by
  rw [handleRequest_get, handleRequest_delete, handleRequest_patch, firstSegment_eq k hk,
    getServerInfo_error mcG k eG hG, deleteServerInfo_error mcD k eD hD,
    updateServerInfo_fault mcS k _ eS (Set_fault mcS _ eS hS)]
  exact ⟨rfl, rfl, rfl, rfl, rfl, rfl⟩

/-- C10 amended, with a time-out injected into each of the three calls. -/
theorem store_failure_responses_witness :
    '/' ∉ "svc1".data
    ∧ (memcache.Client.Get ⟨[("svc1", "v")], [some .ErrTimeout], []⟩ "svc1").1
        = .error .ErrTimeout
    ∧ (memcache.Client.Delete ⟨[("svc1", "v")], [some .ErrTimeout], []⟩ "svc1").1
        = some .ErrTimeout
    ∧ (memcache.Client.Set ⟨[("svc1", "v")], [some .ErrTimeout], []⟩
        { Key := "svc1", Value := payload [("api", "x")] }).1 = some .ErrTimeout
    ∧ (handleRequest ⟨[("svc1", "v")], [some .ErrTimeout], []⟩
        (mkRequest "DELETE" "/svc1" [("api", "x")])).response = { StatusCode := 404 }
    ∧ (handleRequest ⟨[("svc1", "v")], [some .ErrTimeout], []⟩
        (mkRequest "PATCH" "/svc1" [("api", "x")])).response = { StatusCode := 500 } :=
  ⟨by decide, rfl, rfl, rfl,
   (store_failure_responses ⟨[("svc1", "v")], [some .ErrTimeout], []⟩
      ⟨[("svc1", "v")], [some .ErrTimeout], []⟩ ⟨[("svc1", "v")], [some .ErrTimeout], []⟩
      "svc1" [("api", "x")] .ErrTimeout .ErrTimeout .ErrTimeout (by decide) rfl rfl rfl).2.2.1,
   (store_failure_responses ⟨[("svc1", "v")], [some .ErrTimeout], []⟩
      ⟨[("svc1", "v")], [some .ErrTimeout], []⟩ ⟨[("svc1", "v")], [some .ErrTimeout], []⟩
      "svc1" [("api", "x")] .ErrTimeout .ErrTimeout .ErrTimeout (by decide) rfl rfl rfl).2.2.2.2.1⟩

/-! ## Every request, case by case -/

theorem Get_client (mc : memcache.Client) (key : String) :
    (mc.Get key).2 = ⟨mc.items, mc.faults.tail, mc.calls ++ [.Get key]⟩ := by
  unfold memcache.Client.Get
  cases mc.pending with
  | some e => rfl
  | none =>
    cases mc.items.lookup key with
    | none => rfl
    | some v => rfl

theorem Get_result (mc : memcache.Client) (key : String) :
    (mc.pending = none ∧ ∃ v, mc.items.lookup key = some v
        ∧ (mc.Get key).1 = .ok { Key := key, Value := v })
    ∨ ∃ e, (mc.Get key).1 = .error e := by
  unfold memcache.Client.Get
  cases hp : mc.pending with
  | some e => exact Or.inr ⟨e, rfl⟩
  | none =>
    cases hl : mc.items.lookup key with
    | none => exact Or.inr ⟨.ErrCacheMiss, rfl⟩
    | some v => exact Or.inl ⟨rfl, v, rfl, rfl⟩

theorem getServerInfo_cases (mc : memcache.Client) (key : String) :
    (∃ v, mc.pending = none ∧ mc.items.lookup key = some v
        ∧ getServerInfo mc key
          = ⟨{ StatusCode := 200, Body := v, Headers := [("Content-Type", "application/json")] },
              none, ⟨mc.items, mc.faults.tail, mc.calls ++ [.Get key]⟩⟩)
    ∨ getServerInfo mc key
        = ⟨{ StatusCode := 404 }, none, ⟨mc.items, mc.faults.tail, mc.calls ++ [.Get key]⟩⟩ := by
  rcases Get_result mc key with ⟨hp, v, hl, hg⟩ | ⟨e, he⟩
  · exact Or.inl ⟨v, hp, hl, getServerInfo_found mc key v hg⟩
  · exact Or.inr (getServerInfo_error mc key e he)

theorem updateServerInfo_cases (mc : memcache.Client) (key : String)
    (r : LambdaFunctionURLRequest) :
    (mc.pending = none
      ∧ updateServerInfo mc key r
        = ⟨{ StatusCode := 204 }, none,
            ⟨(key, payload r.QueryStringParameters) :: memcache.Client.without mc.items key,
              mc.faults.tail, mc.calls ++ [.Set key (payload r.QueryStringParameters)]⟩⟩)
    ∨ ((∃ e, mc.pending = some e)
      ∧ updateServerInfo mc key r
        = ⟨{ StatusCode := 500 }, some "failed to set item to cache",
            ⟨mc.items, mc.faults.tail,
              mc.calls ++ [.Set key (payload r.QueryStringParameters)]⟩⟩) := by
  cases hp : mc.pending with
  | none => exact Or.inl ⟨rfl, updateServerInfo_ok mc key r hp⟩
  | some e => exact Or.inr ⟨⟨e, rfl⟩, updateServerInfo_fault mc key r e hp⟩

theorem deleteServerInfo_cases (mc : memcache.Client) (key : String) :
    (mc.pending = none ∧ (∃ v, mc.items.lookup key = some v)
      ∧ deleteServerInfo mc key
        = ⟨{ StatusCode := 204 }, none,
            ⟨memcache.Client.without mc.items key, mc.faults.tail,
              mc.calls ++ [.Delete key]⟩⟩)
    ∨ ((∃ e, (mc.Delete key).1 = some e)
      ∧ deleteServerInfo mc key
        = ⟨{ StatusCode := 404 }, none,
            ⟨mc.items, mc.faults.tail, mc.calls ++ [.Delete key]⟩⟩) := by
  cases hp : mc.pending with
  | some e =>
    have he : (mc.Delete key).1 = some e := by simp [memcache.Client.Delete, hp]
    exact Or.inr ⟨⟨e, he⟩, deleteServerInfo_error mc key e he⟩
  | none =>
    cases hl : mc.items.lookup key with
    | none =>
      have he : (mc.Delete key).1 = some .ErrCacheMiss := by
        simp [memcache.Client.Delete, hp, hl]
      exact Or.inr ⟨⟨_, he⟩, deleteServerInfo_error mc key _ he⟩
    | some v => exact Or.inl ⟨rfl, ⟨v, rfl⟩, deleteServerInfo_ok mc key v hp hl⟩

theorem Marshal_conflict :
    json.Marshal [("message", "Record already exists. Use PATCH method to update")]
      = .ok conflictBody := by
  unfold json.Marshal
  exact congrArg Except.ok (by decide)

/-! ## The dispatch of `handleRequest` -/

theorem handleRequest_short (mc : memcache.Client) (request : LambdaFunctionURLRequest)
    (h : (strings.Split request.RawPath '/').length < 2) :
    handleRequest mc request = ⟨{ StatusCode := 404 }, none, mc⟩ := by
  unfold handleRequest
  simp only [if_pos h]
  rfl

theorem handleRequest_GET (mc : memcache.Client) (request : LambdaFunctionURLRequest)
    (h : ¬ (strings.Split request.RawPath '/').length < 2)
    (hm : request.RequestContext.HTTP.Method = http.MethodGet) :
    handleRequest mc request = getServerInfo mc (requestKey request) := by
  unfold handleRequest
  simp only [if_neg h, if_pos hm]
  rfl

theorem handleRequest_POST_conflict (mc : memcache.Client) (request : LambdaFunctionURLRequest)
    (h : ¬ (strings.Split request.RawPath '/').length < 2)
    (hg : request.RequestContext.HTTP.Method ≠ http.MethodGet)
    (hm : request.RequestContext.HTTP.Method = http.MethodPost)
    (e : memcache.Error) (he : (mc.Get (requestKey request)).1 = .error e) :
    handleRequest mc request
      = ⟨{ StatusCode := 403, Body := conflictBody }, none,
          ⟨mc.items, mc.faults.tail, mc.calls ++ [.Get (requestKey request)]⟩⟩ := by
  unfold handleRequest
  simp only [if_neg h, if_neg hg, if_pos hm]
  have hc := Get_client mc (requestKey request)
  unfold requestKey at he hc
  rcases hget : mc.Get ((strings.Split request.RawPath '/').getD 1 "") with ⟨r, c⟩
  rw [hget] at he hc
  simp only at he hc
  subst he
  subst hc
  simp only [Marshal_conflict]
  rfl

theorem handleRequest_POST_write (mc : memcache.Client) (request : LambdaFunctionURLRequest)
    (h : ¬ (strings.Split request.RawPath '/').length < 2)
    (hg : request.RequestContext.HTTP.Method ≠ http.MethodGet)
    (hm : request.RequestContext.HTTP.Method = http.MethodPost)
    (item : memcache.Item) (hi : (mc.Get (requestKey request)).1 = .ok item) :
    handleRequest mc request
      = updateServerInfo ⟨mc.items, mc.faults.tail, mc.calls ++ [.Get (requestKey request)]⟩
          (requestKey request) request := by
  unfold handleRequest
  simp only [if_neg h, if_neg hg, if_pos hm]
  have hc := Get_client mc (requestKey request)
  unfold requestKey at hi hc ⊢
  rcases hget : mc.Get ((strings.Split request.RawPath '/').getD 1 "") with ⟨r, c⟩
  rw [hget] at hi hc
  simp only at hi hc
  subst hi
  subst hc
  rfl

theorem handleRequest_PATCH (mc : memcache.Client) (request : LambdaFunctionURLRequest)
    (h : ¬ (strings.Split request.RawPath '/').length < 2)
    (hg : request.RequestContext.HTTP.Method ≠ http.MethodGet)
    (hp : request.RequestContext.HTTP.Method ≠ http.MethodPost)
    (hm : request.RequestContext.HTTP.Method = http.MethodPatch) :
    handleRequest mc request = updateServerInfo mc (requestKey request) request := by
  unfold handleRequest
  simp only [if_neg h, if_neg hg, if_neg hp, if_pos hm]
  rfl

theorem handleRequest_DELETE (mc : memcache.Client) (request : LambdaFunctionURLRequest)
    (h : ¬ (strings.Split request.RawPath '/').length < 2)
    (hg : request.RequestContext.HTTP.Method ≠ http.MethodGet)
    (hp : request.RequestContext.HTTP.Method ≠ http.MethodPost)
    (hpa : request.RequestContext.HTTP.Method ≠ http.MethodPatch)
    (hm : request.RequestContext.HTTP.Method = http.MethodDelete) :
    handleRequest mc request = deleteServerInfo mc (requestKey request) := by
  unfold handleRequest
  simp only [if_neg h, if_neg hg, if_neg hp, if_neg hpa, if_pos hm]
  rfl

theorem handleRequest_other (mc : memcache.Client) (request : LambdaFunctionURLRequest)
    (h : ¬ (strings.Split request.RawPath '/').length < 2)
    (hg : request.RequestContext.HTTP.Method ≠ http.MethodGet)
    (hp : request.RequestContext.HTTP.Method ≠ http.MethodPost)
    (hpa : request.RequestContext.HTTP.Method ≠ http.MethodPatch)
    (hd : request.RequestContext.HTTP.Method ≠ http.MethodDelete) :
    handleRequest mc request = ⟨{ StatusCode := 405 }, none, mc⟩ := by
  unfold handleRequest
  simp only [if_neg h, if_neg hg, if_neg hp, if_neg hpa, if_neg hd]
  rfl

/-! ## Reading back what the encoder wrote -/

theorem readString_cons_plain (c : Char) (rest : List Char) (hq : c ≠ json.quote)
    (hb : c ≠ json.backslash) (hc : ¬ c.toNat < 32) :
    json.readString (c :: rest) = (json.readString rest).map (fun p => (c :: p.1, p.2)) := by
  rw [json.readString.eq_def]
  simp only [if_neg hq, if_neg hb, if_neg hc]
  cases json.readString rest <;> rfl

theorem readString_short (e d : Char) (rest : List Char) (he : e ≠ 'u')
    (hd : json.escapeChar e = some d) :
    json.readString (json.backslash :: e :: rest)
      = (json.readString rest).map (fun p => (d :: p.1, p.2)) := by
  rw [json.readString.eq_def]
  have h1 : json.backslash ≠ json.quote := by decide
  simp only [if_neg h1, if_true, if_neg he, hd]
  cases json.readString rest <;> rfl

theorem readString_hex (h1 h2 h3 h4 : Char) (d1 d2 d3 d4 : Nat) (rest : List Char)
    (e1 : json.hexVal h1 = some d1) (e2 : json.hexVal h2 = some d2)
    (e3 : json.hexVal h3 = some d3) (e4 : json.hexVal h4 = some d4) :
    json.readString (json.backslash :: 'u' :: h1 :: h2 :: h3 :: h4 :: rest)
      = (json.readString rest).map
          (fun p => (Char.ofNat (((d1 * 16 + d2) * 16 + d3) * 16 + d4) :: p.1, p.2)) := by
  rw [json.readString.eq_def]
  have hq : json.backslash ≠ json.quote := by decide
  simp only [if_neg hq, if_true, e1, e2, e3, e4]
  cases json.readString rest <;> rfl

theorem readString_appendChar (c : Char) (rest : List Char) :
    json.readString (json.appendChar c ++ rest)
      = (json.readString rest).map (fun p => (c :: p.1, p.2)) := by
  unfold json.appendChar
  by_cases hs : json.htmlSafe c = true
  · rw [if_pos hs]
    obtain ⟨hq, hb, hc⟩ := htmlSafe_plain c hs
    exact readString_cons_plain c rest hq hb hc
  · rw [if_neg hs]
    by_cases h1 : c.toNat = 92 ∨ c.toNat = 34
    · rw [if_pos h1]
      rcases h1 with h1 | h1
      · have hc := char_eq_of_toNat c 92 h1
        subst hc
        exact readString_short _ _ rest (by decide) (by decide)
      · have hc := char_eq_of_toNat c 34 h1
        subst hc
        exact readString_short _ _ rest (by decide) (by decide)
    · rw [if_neg h1]
      by_cases h8 : c.toNat = 8
      · rw [if_pos h8, char_eq_of_toNat c 8 h8]
        exact readString_short _ _ rest (by decide) (by decide)
      rw [if_neg h8]
      by_cases h12 : c.toNat = 12
      · rw [if_pos h12, char_eq_of_toNat c 12 h12]
        exact readString_short _ _ rest (by decide) (by decide)
      rw [if_neg h12]
      by_cases h10 : c.toNat = 10
      · rw [if_pos h10, char_eq_of_toNat c 10 h10]
        exact readString_short _ _ rest (by decide) (by decide)
      rw [if_neg h10]
      by_cases h13 : c.toNat = 13
      · rw [if_pos h13, char_eq_of_toNat c 13 h13]
        exact readString_short _ _ rest (by decide) (by decide)
      rw [if_neg h13]
      by_cases h9 : c.toNat = 9
      · rw [if_pos h9, char_eq_of_toNat c 9 h9]
        exact readString_short _ _ rest (by decide) (by decide)
      rw [if_neg h9]
      by_cases h128 : c.toNat < 128
      · rw [if_pos h128]
        have e0 : json.hexVal '0' = some 0 := by decide
        have e3 := hexVal_hex (c.toNat / 16) (by omega)
        have e4 := hexVal_hex (c.toNat % 16) (by omega)
        have := readString_hex '0' '0' _ _ 0 0 _ _ rest e0 e0 e3 e4
        have hn : ((0 * 16 + 0) * 16 + c.toNat / 16) * 16 + c.toNat % 16 = c.toNat := by omega
        rw [hn, Char.ofNat_toNat] at this
        exact this
      · rw [if_neg h128]
        have hc : c.toNat = 8232 ∨ c.toNat = 8233 := by
          simp [json.htmlSafe, h128] at hs
          by_cases h : c.toNat = 8232
          · exact Or.inl h
          · exact Or.inr (hs h)
        rcases hc with hc | hc
        · rw [char_eq_of_toNat c _ hc]
          exact readString_hex '2' '0' '2' _ 2 0 2 8 rest (by decide) (by decide) (by decide)
            (by decide)
        · rw [char_eq_of_toNat c _ hc]
          exact readString_hex '2' '0' '2' _ 2 0 2 9 rest (by decide) (by decide) (by decide)
            (by decide)

theorem readString_flatMap (cs rest : List Char) :
    json.readString (cs.flatMap json.appendChar ++ json.quote :: rest) = some (cs, rest) := by
  induction cs with
  | nil =>
    show json.readString (json.quote :: rest) = some ([], rest)
    rw [json.readString.eq_def]
    simp
  | cons c cs ih =>
    rw [List.flatMap_cons, List.append_assoc, readString_appendChar, ih]
    rfl

theorem readLiteral_appendString (s : String) (rest : List Char) :
    json.readLiteral ((json.appendString s).data ++ rest) = some (s.data, rest) := by
  have := readString_flatMap s.data rest
  simp [json.readLiteral, json.appendString, this]

theorem expect_append (lit rest : List Char) : json.expect lit (lit ++ rest) = some rest := by
  induction lit with
  | nil => cases rest <;> rfl
  | cons c cs ih => simp [json.expect, ih]

theorem parseServerInfo_object (a w g : String) :
    parseServerInfo (json.object [("api", a), ("ws", w), ("grpc", g)])
      = some { API := a, WS := w, GRPC := g } := by
  have hdata : (json.object [("api", a), ("ws", w), ("grpc", g)]).data
      = "\x7b\"api\":".data ++ ((json.appendString a).data ++ (",\"ws\":".data
          ++ ((json.appendString w).data ++ (",\"grpc\":".data
            ++ ((json.appendString g).data ++ [Char.ofNat 125]))))) := by
    have h1 : json.appendString "api" = "\"api\"" := by decide
    have h2 : json.appendString "ws" = "\"ws\"" := by decide
    have h3 : json.appendString "grpc" = "\"grpc\"" := by decide
    simp [json.object, json.member, String.intercalate, String.intercalate.go, h1, h2, h3]
  unfold parseServerInfo
  rw [hdata]
  simp only [expect_append, readLiteral_appendString, Option.bind_eq_bind, Option.some_bind,
    if_true]

theorem parseServerInfo_payload (q : List (String × String)) :
    parseServerInfo (payload q)
      = some { API := index q "api", WS := index q "ws", GRPC := index q "grpc" } :=
  parseServerInfo_object _ _ _

theorem isServerInfoJSON_payload (q : List (String × String)) :
    isServerInfoJSON (payload q) = true := by
  simp [isServerInfoJSON, parseServerInfo_payload]

/-! ## Records under other keys -/

theorem lookup_without_ne (items : List (String × String)) (k k' : String) (h : k' ≠ k) :
    (memcache.Client.without items k).lookup k' = items.lookup k' := by
  induction items with
  | nil => rfl
  | cons p ps ih =>
    obtain ⟨a, b⟩ := p
    unfold memcache.Client.without at ih ⊢
    by_cases hp : a = k
    · rw [List.filter_cons_of_neg (by simp [hp])]
      have hk : (k' == a) = false := by simp [hp, h]
      simp only [List.lookup, hk]
      exact ih
    · rw [List.filter_cons_of_pos (by simp [hp])]
      cases hk : k' == a with
      | true => simp only [List.lookup, hk]
      | false => simp only [List.lookup, hk]; exact ih

theorem lookup_cons_ne (items : List (String × String)) (k k' v : String) (h : k' ≠ k) :
    ((k, v) :: items).lookup k' = items.lookup k' := by
  have hk : (k' == k) = false := by simp [h]
  simp only [List.lookup, hk]

theorem mem_of_lookup (items : List (String × String)) (k v : String)
    (h : items.lookup k = some v) : (k, v) ∈ items := by
  induction items with
  | nil => simp [List.lookup] at h
  | cons p ps ih =>
    obtain ⟨a, b⟩ := p
    cases hk : k == a with
    | true =>
      have hka : k = a := by simpa using hk
      simp only [List.lookup, hk] at h
      cases h
      simp [hka]
    | false =>
      simp only [List.lookup, hk] at h
      exact List.mem_cons_of_mem _ (ih h)

theorem storeValid_iff (items : List (String × String)) :
    storeValid items ↔ ∀ k v, items.lookup k = some v → isServerInfoJSON v = true := by
  constructor
  · intro h k v hl
    exact h (k, v) (mem_of_lookup items k v hl) hl
  · intro h p _ hl
    exact h p.1 p.2 hl

/-! ## What a request does to the cache, and what it answers -/

theorem handleRequest_effect (mc : memcache.Client) (request : LambdaFunctionURLRequest) :
    ∃ items faults l, (handleRequest mc request).client = ⟨items, faults, mc.calls ++ l⟩
      ∧ (∀ c ∈ l, c.key = requestKey request)
      ∧ (items = mc.items
        ∨ items = (requestKey request, payload request.QueryStringParameters)
            :: memcache.Client.without mc.items (requestKey request)
        ∨ items = memcache.Client.without mc.items (requestKey request)) := by
  by_cases hlen : (strings.Split request.RawPath '/').length < 2
  · rw [handleRequest_short mc request hlen]
    exact ⟨mc.items, mc.faults, [], by simp, by simp, Or.inl rfl⟩
  by_cases hg : request.RequestContext.HTTP.Method = http.MethodGet
  · rw [handleRequest_GET mc request hlen hg]
    rcases getServerInfo_cases mc (requestKey request) with ⟨v, _, _, h⟩ | h <;> rw [h] <;>
      exact ⟨_, _, [.Get (requestKey request)], rfl, by simp [memcache.Call.key], Or.inl rfl⟩
  by_cases hp : request.RequestContext.HTTP.Method = http.MethodPost
  · rcases Get_result mc (requestKey request) with ⟨_, v, _, hi⟩ | ⟨e, he⟩
    · rw [handleRequest_POST_write mc request hlen hg hp _ hi]
      rcases updateServerInfo_cases
          ⟨mc.items, mc.faults.tail, mc.calls ++ [.Get (requestKey request)]⟩
          (requestKey request) request with ⟨_, h⟩ | ⟨_, h⟩ <;> rw [h]
      · exact ⟨_, mc.faults.tail.tail, [.Get (requestKey request),
            .Set (requestKey request) (payload request.QueryStringParameters)],
          by simp, by simp [memcache.Call.key], Or.inr (Or.inl rfl)⟩
      · exact ⟨_, mc.faults.tail.tail, [.Get (requestKey request),
            .Set (requestKey request) (payload request.QueryStringParameters)],
          by simp, by simp [memcache.Call.key], Or.inl rfl⟩
    · rw [handleRequest_POST_conflict mc request hlen hg hp e he]
      exact ⟨_, _, [.Get (requestKey request)], rfl, by simp [memcache.Call.key], Or.inl rfl⟩
  by_cases hpa : request.RequestContext.HTTP.Method = http.MethodPatch
  · rw [handleRequest_PATCH mc request hlen hg hp hpa]
    rcases updateServerInfo_cases mc (requestKey request) request with ⟨_, h⟩ | ⟨_, h⟩ <;> rw [h]
    · exact ⟨_, _, [.Set (requestKey request) (payload request.QueryStringParameters)],
        rfl, by simp [memcache.Call.key], Or.inr (Or.inl rfl)⟩
    · exact ⟨_, _, [.Set (requestKey request) (payload request.QueryStringParameters)],
        rfl, by simp [memcache.Call.key], Or.inl rfl⟩
  by_cases hd : request.RequestContext.HTTP.Method = http.MethodDelete
  · rw [handleRequest_DELETE mc request hlen hg hp hpa hd]
    rcases deleteServerInfo_cases mc (requestKey request) with ⟨_, _, h⟩ | ⟨_, h⟩ <;> rw [h]
    · exact ⟨_, _, [.Delete (requestKey request)], rfl, by simp [memcache.Call.key],
        Or.inr (Or.inr rfl)⟩
    · exact ⟨_, _, [.Delete (requestKey request)], rfl, by simp [memcache.Call.key],
        Or.inl rfl⟩
  · rw [handleRequest_other mc request hlen hg hp hpa hd]
    exact ⟨mc.items, mc.faults, [], by simp, by simp, Or.inl rfl⟩

theorem handleRequest_answer (mc : memcache.Client) (request : LambdaFunctionURLRequest) :
    (∃ v, (handleRequest mc request).response
          = { StatusCode := 200, Body := v, Headers := [("Content-Type", "application/json")] }
        ∧ (handleRequest mc request).err = none)
    ∨ ((handleRequest mc request).response = { StatusCode := 204 }
        ∧ (handleRequest mc request).err = none)
    ∨ ((handleRequest mc request).response = { StatusCode := 403, Body := conflictBody }
        ∧ (handleRequest mc request).err = none)
    ∨ ((handleRequest mc request).response = { StatusCode := 404 }
        ∧ (handleRequest mc request).err = none)
    ∨ ((handleRequest mc request).response = { StatusCode := 405 }
        ∧ (handleRequest mc request).err = none)
    ∨ ((handleRequest mc request).response = { StatusCode := 500 }
        ∧ (handleRequest mc request).err = some "failed to set item to cache") := by
  by_cases hlen : (strings.Split request.RawPath '/').length < 2
  · rw [handleRequest_short mc request hlen]
    exact Or.inr (Or.inr (Or.inr (Or.inl ⟨rfl, rfl⟩)))
  by_cases hg : request.RequestContext.HTTP.Method = http.MethodGet
  · rw [handleRequest_GET mc request hlen hg]
    rcases getServerInfo_cases mc (requestKey request) with ⟨v, _, _, h⟩ | h <;> rw [h]
    · exact Or.inl ⟨v, rfl, rfl⟩
    · exact Or.inr (Or.inr (Or.inr (Or.inl ⟨rfl, rfl⟩)))
  by_cases hp : request.RequestContext.HTTP.Method = http.MethodPost
  · rcases Get_result mc (requestKey request) with ⟨_, v, _, hi⟩ | ⟨e, he⟩
    · rw [handleRequest_POST_write mc request hlen hg hp _ hi]
      rcases updateServerInfo_cases
          ⟨mc.items, mc.faults.tail, mc.calls ++ [.Get (requestKey request)]⟩
          (requestKey request) request with ⟨_, h⟩ | ⟨_, h⟩ <;> rw [h]
      · exact Or.inr (Or.inl ⟨rfl, rfl⟩)
      · exact Or.inr (Or.inr (Or.inr (Or.inr (Or.inr ⟨rfl, rfl⟩))))
    · rw [handleRequest_POST_conflict mc request hlen hg hp e he]
      exact Or.inr (Or.inr (Or.inl ⟨rfl, rfl⟩))
  by_cases hpa : request.RequestContext.HTTP.Method = http.MethodPatch
  · rw [handleRequest_PATCH mc request hlen hg hp hpa]
    rcases updateServerInfo_cases mc (requestKey request) request with ⟨_, h⟩ | ⟨_, h⟩ <;> rw [h]
    · exact Or.inr (Or.inl ⟨rfl, rfl⟩)
    · exact Or.inr (Or.inr (Or.inr (Or.inr (Or.inr ⟨rfl, rfl⟩))))
  by_cases hd : request.RequestContext.HTTP.Method = http.MethodDelete
  · rw [handleRequest_DELETE mc request hlen hg hp hpa hd]
    rcases deleteServerInfo_cases mc (requestKey request) with ⟨_, _, h⟩ | ⟨_, h⟩ <;> rw [h]
    · exact Or.inr (Or.inl ⟨rfl, rfl⟩)
    · exact Or.inr (Or.inr (Or.inr (Or.inl ⟨rfl, rfl⟩)))
  · rw [handleRequest_other mc request hlen hg hp hpa hd]
    exact Or.inr (Or.inr (Or.inr (Or.inr (Or.inl ⟨rfl, rfl⟩))))

/-! ## Claims C11 to C20 -/

theorem Set_result (mc : memcache.Client) (item : memcache.Item) :
    (mc.Set item).1 = mc.pending := by
  unfold memcache.Client.Set
  cases mc.pending <;> rfl

/-- C11: for every key `k` (a path segment), every query map and every cache,
`PATCH /k` is answered 204 with an empty body and a nil error exactly when the
cache's `Set` of the payload succeeds; when `Set` fails it is answered 500
with an empty body and the error "failed to set item to cache".  Serializing
three strings succeeds for every triple, so the answer is never the
serialization failure. -/
theorem patch_answer_follows_set (mc : memcache.Client) (k : String)
    (q : List (String × String)) (hk : '/' ∉ k.data) :
    (((handleRequest mc (mkRequest "PATCH" ("/" ++ k) q)).response
          = { StatusCode := 204, Body := "" }
        ∧ (handleRequest mc (mkRequest "PATCH" ("/" ++ k) q)).err = none)
      ↔ (mc.Set { Key := k, Value := payload q }).1 = none)
    ∧ ((mc.Set { Key := k, Value := payload q }).1 ≠ none →
        (handleRequest mc (mkRequest "PATCH" ("/" ++ k) q)).response
          = { StatusCode := 500, Body := "" }
        ∧ (handleRequest mc (mkRequest "PATCH" ("/" ++ k) q)).err
          = some "failed to set item to cache")
    ∧ (∀ a w g : String, ∃ v,
        json.Marshal (ServerInfo.members { API := a, WS := w, GRPC := g }) = .ok v)
    ∧ (handleRequest mc (mkRequest "PATCH" ("/" ++ k) q)).err ≠ some "failed to marshal json" := by
  rw [handleRequest_patch, firstSegment_eq k hk, Set_result]
  rcases updateServerInfo_cases mc k (mkRequest "PATCH" ("/" ++ k) q) with ⟨hp, h⟩ | ⟨⟨e, hp⟩, h⟩
  · rw [h, hp]
    refine ⟨⟨fun _ => rfl, fun _ => ⟨rfl, rfl⟩⟩, fun hne => absurd rfl hne, ?_, by simp⟩
    intro a w g
    exact ⟨_, rfl⟩
  · rw [h, hp]
    refine ⟨⟨fun hh => ?_, fun hh => ?_⟩, fun _ => ⟨rfl, rfl⟩, ?_, by simp⟩
    · have := congrArg LambdaFunctionURLResponse.StatusCode hh.1
      simp at this
    · simp at hh
    · intro a w g
      exact ⟨_, rfl⟩

/-- C11 on a cache whose next call times out, and on a reliable one. -/
theorem patch_answer_follows_set_witness :
    '/' ∉ "svc1".data
    ∧ (memcache.Client.Set ⟨[], [some .ErrTimeout], []⟩
        { Key := "svc1", Value := payload [("api", "x")] }).1 ≠ none
    ∧ (handleRequest ⟨[], [some .ErrTimeout], []⟩
        (mkRequest "PATCH" "/svc1" [("api", "x")])).response = { StatusCode := 500, Body := "" }
    ∧ (memcache.Client.Set ⟨[], [], []⟩
        { Key := "svc1", Value := payload [("api", "x")] }).1 = none
    ∧ (handleRequest ⟨[], [], []⟩
        (mkRequest "PATCH" "/svc1" [("api", "x")])).response = { StatusCode := 204, Body := "" } :=
  ⟨by decide, by decide,
   ((patch_answer_follows_set ⟨[], [some .ErrTimeout], []⟩ "svc1" [("api", "x")]
      (by decide)).2.1 (by decide)).1,
   by decide,
   ((patch_answer_follows_set ⟨[], [], []⟩ "svc1" [("api", "x")]
      (by decide)).1.mpr (by decide)).1⟩

/-- C12: update is an unconditional full replace.  For every key `k` (a path
segment), every query map `q` and every cache whose `Set` succeeds, `PATCH /k`
is answered 204 and afterwards the value under `k` is the serialization of
`(q[api], q[ws], q[grpc])`, an absent parameter being the empty string; the
value read back as a record gives these three strings.  Neither the answer nor
the stored value depends on the cache the request started from. -/
theorem patch_replaces_record (mc : memcache.Client) (k : String)
    (q : List (String × String)) (hk : '/' ∉ k.data)
    (hset : (mc.Set { Key := k, Value := payload q }).1 = none) :
    (handleRequest mc (mkRequest "PATCH" ("/" ++ k) q)).response = { StatusCode := 204 }
    ∧ (handleRequest mc (mkRequest "PATCH" ("/" ++ k) q)).client.items.lookup k
        = some (json.object [("api", (q.lookup "api").getD ""), ("ws", (q.lookup "ws").getD ""),
            ("grpc", (q.lookup "grpc").getD "")])
    ∧ parseServerInfo
        (json.object [("api", (q.lookup "api").getD ""), ("ws", (q.lookup "ws").getD ""),
            ("grpc", (q.lookup "grpc").getD "")])
        = some { API := (q.lookup "api").getD "", WS := (q.lookup "ws").getD "",
                 GRPC := (q.lookup "grpc").getD "" }
    ∧ ∀ mc' : memcache.Client, (mc'.Set { Key := k, Value := payload q }).1 = none →
        (handleRequest mc' (mkRequest "PATCH" ("/" ++ k) q)).response
          = (handleRequest mc (mkRequest "PATCH" ("/" ++ k) q)).response
        ∧ (handleRequest mc' (mkRequest "PATCH" ("/" ++ k) q)).client.items.lookup k
          = (handleRequest mc (mkRequest "PATCH" ("/" ++ k) q)).client.items.lookup k := by
  rw [Set_result] at hset
  rw [handleRequest_patch, firstSegment_eq k hk, updateServerInfo_ok mc k _ hset]
  refine ⟨rfl, lookup_cons_self _ _ _, parseServerInfo_object _ _ _, ?_⟩
  intro mc' hset'
  rw [Set_result] at hset'
  rw [handleRequest_patch, firstSegment_eq k hk, updateServerInfo_ok mc' k _ hset']
  exact ⟨rfl, by rw [lookup_cons_self, lookup_cons_self]⟩

/-- C12 on a cache that holds an older record with all three fields: after
`PATCH /svc1?ws=w` the fields `api` and `grpc` are empty, not the old ones. -/
theorem patch_replaces_record_witness :
    '/' ∉ "svc1".data
    ∧ (memcache.Client.Set
        ⟨[("svc1", "\x7b\"api\":\"a\",\"ws\":\"b\",\"grpc\":\"c\"\x7d")], [], []⟩
        { Key := "svc1", Value := payload [("ws", "w")] }).1 = none
    ∧ (handleRequest
        ⟨[("svc1", "\x7b\"api\":\"a\",\"ws\":\"b\",\"grpc\":\"c\"\x7d")], [], []⟩
        (mkRequest "PATCH" "/svc1" [("ws", "w")])).client.items.lookup "svc1"
      = some "\x7b\"api\":\"\",\"ws\":\"w\",\"grpc\":\"\"\x7d" :=
  ⟨by decide, by decide,
   (patch_replaces_record
      ⟨[("svc1", "\x7b\"api\":\"a\",\"ws\":\"b\",\"grpc\":\"c\"\x7d")], [], []⟩ "svc1"
      [("ws", "w")] (by decide) (by decide)).2.1⟩

/-- C13: a request whose path, split on `/`, has fewer than two elements is
answered 404 with an empty body and a nil error, whatever the method, and the
cache is not called (the client is returned as it was). -/
theorem short_path_is_404 (mc : memcache.Client) (request : LambdaFunctionURLRequest)
    (h : (strings.Split request.RawPath '/').length < 2) :
    handleRequest mc request = ⟨{ StatusCode := 404, Body := "" }, none, mc⟩ :=
  handleRequest_short mc request h

/-- C13 on the path `svc1` (no `/`) with the method DELETE: the record is kept. -/
theorem short_path_is_404_witness :
    (strings.Split "svc1" '/').length < 2
    ∧ handleRequest ⟨[("svc1", "v")], [none], []⟩ (mkRequest "DELETE" "svc1" [])
      = ⟨{ StatusCode := 404, Body := "" }, none, ⟨[("svc1", "v")], [none], []⟩⟩ :=
  ⟨by decide,
   short_path_is_404 ⟨[("svc1", "v")], [none], []⟩ (mkRequest "DELETE" "svc1" []) (by decide)⟩

theorem shape_preserved (shape : String → Prop)
    (hshape : ∀ a w g : String, shape (json.object [("api", a), ("ws", w), ("grpc", g)]))
    (mc : memcache.Client) (request : LambdaFunctionURLRequest)
    (hold : ∀ k v, mc.items.lookup k = some v → shape v) :
    ∀ k v, (handleRequest mc request).client.items.lookup k = some v → shape v := by
  obtain ⟨items, faults, l, hc, _, hi⟩ := handleRequest_effect mc request
  rw [hc]
  intro k v hl
  simp only at hl
  rcases hi with hi | hi | hi
  · rw [hi] at hl
    exact hold k v hl
  · rw [hi] at hl
    by_cases hkk : k = requestKey request
    · rw [hkk, lookup_cons_self] at hl
      cases hl
      exact hshape _ _ _
    · rw [lookup_cons_ne _ _ _ _ hkk, lookup_without_ne _ _ _ hkk] at hl
      exact hold k v hl
  · rw [hi] at hl
    by_cases hkk : k = requestKey request
    · rw [hkk, lookup_without] at hl
      cases hl
    · rw [lookup_without_ne _ _ _ hkk] at hl
      exact hold k v hl

/-- C14: the shape of the stored records is invariant.  If every record of the
cache has a value of the shape `{api, ws, grpc}` with three string members
(as the empty cache has), then after any single request, whatever its method,
path and query and whether the cache calls succeed or fail, every record still
has a value of that shape: it reads back as a record of three strings.  The
same holds for every notion of shape that admits the objects the encoder
writes for three strings. -/
theorem store_shape_preserved (mc : memcache.Client) (request : LambdaFunctionURLRequest) :
    (storeValid mc.items →
      storeValid (handleRequest mc request).client.items
      ∧ ∀ k v, (handleRequest mc request).client.items.lookup k = some v →
          ∃ a w g : String, parseServerInfo v = some { API := a, WS := w, GRPC := g })
    ∧ (∀ shape : String → Prop,
        (∀ a w g : String, shape (json.object [("api", a), ("ws", w), ("grpc", g)])) →
        (∀ k v, mc.items.lookup k = some v → shape v) →
        ∀ k v, (handleRequest mc request).client.items.lookup k = some v → shape v)
    ∧ ∀ a w g : String,
        parseServerInfo (json.object [("api", a), ("ws", w), ("grpc", g)])
          = some { API := a, WS := w, GRPC := g } := by
  refine ⟨fun h => ?_, fun shape hshape hold => shape_preserved shape hshape mc request hold,
    parseServerInfo_object⟩
  have hnew := shape_preserved (fun v => isServerInfoJSON v = true)
    (fun a w g => by simp [isServerInfoJSON, parseServerInfo_object]) mc request
    ((storeValid_iff mc.items).mp h)
  refine ⟨(storeValid_iff _).mpr hnew, ?_⟩
  intro k v hl
  have hv := hnew k v hl
  simp only [isServerInfoJSON] at hv
  cases hp : parseServerInfo v with
  | none => rw [hp] at hv; cases hv
  | some s => exact ⟨s.API, s.WS, s.GRPC, rfl⟩

/-- C14 from the empty cache, and from a cache with one well-formed record
under a POST whose write fails. -/
theorem store_shape_preserved_witness :
    storeValid []
    ∧ storeValid (handleRequest ⟨[], [], []⟩
        (mkRequest "PATCH" "/svc1" [("api", "a\"b")])).client.items
    ∧ storeValid [("svc1", "\x7b\"api\":\"a\",\"ws\":\"b\",\"grpc\":\"c\"\x7d")]
    ∧ storeValid (handleRequest
        ⟨[("svc1", "\x7b\"api\":\"a\",\"ws\":\"b\",\"grpc\":\"c\"\x7d")],
          [none, some .ErrTimeout], []⟩
        (mkRequest "POST" "/svc1" [("api", "x")])).client.items :=
  ⟨by decide,
   ((store_shape_preserved ⟨[], [], []⟩ (mkRequest "PATCH" "/svc1" [("api", "a\"b")])).1
      (by decide)).1,
   by decide,
   ((store_shape_preserved
      ⟨[("svc1", "\x7b\"api\":\"a\",\"ws\":\"b\",\"grpc\":\"c\"\x7d")],
        [none, some .ErrTimeout], []⟩
      (mkRequest "POST" "/svc1" [("api", "x")])).1 (by decide)).1⟩

theorem getServerInfo_congr (mc mc' : memcache.Client) (key : String)
    (hi : mc'.items = mc.items) (hp : mc'.pending = mc.pending) :
    (getServerInfo mc' key).response = (getServerInfo mc key).response
    ∧ (getServerInfo mc' key).err = (getServerInfo mc key).err := by
  unfold getServerInfo memcache.Client.Get
  rw [hi, hp]
  cases mc.pending with
  | some e => exact ⟨rfl, rfl⟩
  | none =>
    cases mc.items.lookup key with
    | none => exact ⟨rfl, rfl⟩
    | some v => exact ⟨rfl, rfl⟩

theorem pending_tail_of_reliable (mc : memcache.Client) (items : List (String × String))
    (calls : List memcache.Call) (h : mc.reliable) :
    memcache.Client.pending ⟨items, mc.faults.tail, calls⟩ = mc.pending := by
  rw [pending_of_reliable mc h, pending_of_reliable _ (reliable_tail mc items calls h)]

/-- C15: read is safe.  For every path, query map and cache, handling a GET
leaves the records of the cache exactly as they were and issues no call other
than `Get`.  Hence the same GET repeated on the cache as the first one left
it, served as the first one was, returns the same response; so does the GET
that follows the first one whenever the cache serves it as it served the
first, in particular on a reliable cache. -/
theorem get_is_safe (mc : memcache.Client) (path : String) (q : List (String × String)) :
    (handleRequest mc (mkRequest "GET" path q)).client.items = mc.items
    ∧ (∃ l, (handleRequest mc (mkRequest "GET" path q)).client.calls = mc.calls ++ l
        ∧ ∀ c ∈ l, c.isGet = true)
    ∧ (handleRequest
          ⟨(handleRequest mc (mkRequest "GET" path q)).client.items, mc.faults,
            (handleRequest mc (mkRequest "GET" path q)).client.calls⟩
          (mkRequest "GET" path q)).response
        = (handleRequest mc (mkRequest "GET" path q)).response
    ∧ ((handleRequest mc (mkRequest "GET" path q)).client.pending = mc.pending →
        (handleRequest (handleRequest mc (mkRequest "GET" path q)).client
            (mkRequest "GET" path q)).response
          = (handleRequest mc (mkRequest "GET" path q)).response
        ∧ (handleRequest (handleRequest mc (mkRequest "GET" path q)).client
            (mkRequest "GET" path q)).err
          = (handleRequest mc (mkRequest "GET" path q)).err)
    ∧ (mc.reliable →
        (handleRequest (handleRequest mc (mkRequest "GET" path q)).client
            (mkRequest "GET" path q)).response
          = (handleRequest mc (mkRequest "GET" path q)).response) := by
  by_cases hlen : (strings.Split path '/').length < 2
  · have h0 : handleRequest mc (mkRequest "GET" path q) = ⟨{ StatusCode := 404 }, none, mc⟩ :=
      handleRequest_short mc (mkRequest "GET" path q) hlen
    have h1 : ∀ c : memcache.Client, handleRequest c (mkRequest "GET" path q)
        = ⟨{ StatusCode := 404 }, none, c⟩ :=
      fun c => handleRequest_short c (mkRequest "GET" path q) hlen
    rw [h0]
    exact ⟨rfl, ⟨[], by simp, by simp⟩, by rw [h1],
      fun _ => ⟨by simp only [h0], by simp only [h0]⟩, fun _ => by simp only [h0]⟩
  · have hget : ∀ c : memcache.Client, handleRequest c (mkRequest "GET" path q)
        = getServerInfo c ((strings.Split path '/').getD 1 "") := by
      intro c
      rw [handleRequest_get_any, if_neg hlen]
    have hcl : (getServerInfo mc ((strings.Split path '/').getD 1 "")).client
        = ⟨mc.items, mc.faults.tail, mc.calls ++ [.Get ((strings.Split path '/').getD 1 "")]⟩ := by
      rcases getServerInfo_cases mc ((strings.Split path '/').getD 1 "") with ⟨v, _, _, h⟩ | h <;>
        rw [h]
    simp only [hget, hcl]
    refine ⟨trivial, ⟨[.Get ((strings.Split path '/').getD 1 "")], rfl,
      by simp [memcache.Call.isGet]⟩, ?_, ?_, ?_⟩
    · exact (getServerInfo_congr mc
        ⟨mc.items, mc.faults, mc.calls ++ [.Get ((strings.Split path '/').getD 1 "")]⟩
        _ rfl rfl).1
    · intro hp
      exact getServerInfo_congr mc
        ⟨mc.items, mc.faults.tail, mc.calls ++ [.Get ((strings.Split path '/').getD 1 "")]⟩
        _ rfl hp
    · intro hrel
      exact (getServerInfo_congr mc
        ⟨mc.items, mc.faults.tail, mc.calls ++ [.Get ((strings.Split path '/').getD 1 "")]⟩
        _ rfl (pending_tail_of_reliable mc _ _ hrel)).1

/-- C15 on a reliable cache that holds `svc1`: two GETs, same response, and
only `Get` calls in the trace. -/
theorem get_is_safe_witness :
    memcache.Client.reliable ⟨[("svc1", "v")], [], []⟩
    ∧ (handleRequest (handleRequest ⟨[("svc1", "v")], [], []⟩ (mkRequest "GET" "/svc1" [])).client
        (mkRequest "GET" "/svc1" [])).response
      = (handleRequest ⟨[("svc1", "v")], [], []⟩ (mkRequest "GET" "/svc1" [])).response
    ∧ (handleRequest ⟨[("svc1", "v")], [], []⟩ (mkRequest "GET" "/svc1" [])).client.items
      = [("svc1", "v")] :=
  ⟨by decide,
   (get_is_safe ⟨[("svc1", "v")], [], []⟩ "/svc1" []).2.2.2.2 (by decide),
   (get_is_safe ⟨[("svc1", "v")], [], []⟩ "/svc1" []).1⟩

theorem splitChars_append_sep (sep : Char) (k r : List Char) (hk : sep ∉ k) :
    strings.splitChars sep (k ++ sep :: r) = k :: strings.splitChars sep r := by
  induction k with
  | nil => simp [strings.splitChars]
  | cons c cs ih =>
    have hc : c ≠ sep := fun e => hk (by simp [e])
    have hcs : sep ∉ cs := fun e => hk (by simp [e])
    simp [strings.splitChars, hc, ih hcs]

theorem Split_key_rest (k r : String) (hk : '/' ∉ k.data) :
    strings.Split ("/" ++ k ++ "/" ++ r) '/' = "" :: k :: strings.Split r '/' := by
  have h := splitChars_append_sep '/' k.data r.data hk
  simp [strings.Split, strings.splitChars, h]

theorem Split_key (k : String) (hk : '/' ∉ k.data) :
    strings.Split ("/" ++ k) '/' = ["", k] := by
  rw [Split_slash]
  simp [strings.Split, splitChars_of_not_mem _ _ hk]

/-- C16: additional path segments are ignored.  For every key `k` without `/`,
every suffix `r`, every method, query map and cache, the request with the
path `/k/r` has the same outcome (response, error and resulting cache, the
trace of calls included) as the request with the path `/k`. -/
theorem extra_segments_ignored (mc : memcache.Client) (method k r : String)
    (q : List (String × String)) (hk : '/' ∉ k.data) :
    handleRequest mc (mkRequest method ("/" ++ k ++ "/" ++ r) q)
      = handleRequest mc (mkRequest method ("/" ++ k) q) := by
  unfold handleRequest
  simp only [mkRequest, Split_key_rest k r hk, Split_key k hk]
  rfl

/-- C16 on `DELETE /svc1/extra/more`. -/
theorem extra_segments_ignored_witness :
    '/' ∉ "svc1".data
    ∧ handleRequest ⟨[("svc1", "v")], [], []⟩ (mkRequest "DELETE" "/svc1/extra/more" [])
      = handleRequest ⟨[("svc1", "v")], [], []⟩ (mkRequest "DELETE" "/svc1" []) :=
  ⟨by decide,
   extra_segments_ignored ⟨[("svc1", "v")], [], []⟩ "DELETE" "svc1" "extra/more" [] (by decide)⟩

/-- C17: the status mapping is total.  For every request and every cache the
status is one of 200, 204, 403, 404, 405, 500; the body is non-empty only with
200 or 403; and the error is non-nil exactly when the status is 500. -/
theorem status_mapping_total (mc : memcache.Client) (request : LambdaFunctionURLRequest) :
    (handleRequest mc request).response.StatusCode ∈ [200, 204, 403, 404, 405, 500]
    ∧ ((handleRequest mc request).response.Body ≠ "" →
        (handleRequest mc request).response.StatusCode = 200
        ∨ (handleRequest mc request).response.StatusCode = 403)
    ∧ ((handleRequest mc request).err ≠ none
        ↔ (handleRequest mc request).response.StatusCode = 500) := by
  rcases handleRequest_answer mc request with
    ⟨v, hr, he⟩ | ⟨hr, he⟩ | ⟨hr, he⟩ | ⟨hr, he⟩ | ⟨hr, he⟩ | ⟨hr, he⟩ <;>
    rw [hr, he] <;> simp

/-- C17 on a GET that finds a record: status 200 with a body and no error; and
on a PATCH whose write fails: status 500 with an error. -/
theorem status_mapping_total_witness :
    (handleRequest ⟨[("svc1", "v")], [], []⟩ (mkRequest "GET" "/svc1" [])).response.Body ≠ ""
    ∧ ((handleRequest ⟨[("svc1", "v")], [], []⟩ (mkRequest "GET" "/svc1" [])).response.StatusCode
        = 200
      ∨ (handleRequest ⟨[("svc1", "v")], [], []⟩ (mkRequest "GET" "/svc1" [])).response.StatusCode
        = 403)
    ∧ (handleRequest ⟨[], [some .ErrNoServers], []⟩ (mkRequest "PATCH" "/svc1" [])).err ≠ none
    ∧ (handleRequest ⟨[], [some .ErrNoServers], []⟩
        (mkRequest "PATCH" "/svc1" [])).response.StatusCode = 500 :=
  ⟨by decide,
   (status_mapping_total ⟨[("svc1", "v")], [], []⟩ (mkRequest "GET" "/svc1" [])).2.1 (by decide),
   by decide,
   (status_mapping_total ⟨[], [some .ErrNoServers], []⟩ (mkRequest "PATCH" "/svc1" [])).2.2.mp
     (by decide)⟩

/-- C18 as stated fails: for the path `//a` the first non-empty segment after
the leading `/` is `a`, but the second element of the split is the empty
string, and that is the key `handleRequest` uses: `GET //a` calls `Get ""` and
does not find the record stored under `a`. -/
theorem double_slash_key_is_empty :
    firstNonEmptySegment "//a" = some "a"
    ∧ strings.Split "//a" '/' = ["", "", "a"]
    ∧ handleRequest ⟨[("a", "v")], [], []⟩ (mkRequest "GET" "//a" [])
      = ⟨{ StatusCode := 404 }, none, ⟨[("a", "v")], [], [.Get ""]⟩⟩ := by
  decide

/-- C18 amended: for every request whose path has a non-empty second element
when split on `/`, every call made to the cache is about that second element,
and it is the first non-empty segment following the leading `/`. -/
theorem key_is_second_element (mc : memcache.Client) (request : LambdaFunctionURLRequest)
    (hkey : (strings.Split request.RawPath '/').getD 1 "" ≠ "") :
    (∃ l, (handleRequest mc request).client.calls = mc.calls ++ l
      ∧ ∀ c ∈ l, c.key = (strings.Split request.RawPath '/').getD 1 "")
    ∧ firstNonEmptySegment request.RawPath
        = some ((strings.Split request.RawPath '/').getD 1 "") := by
  constructor
  · obtain ⟨items, faults, l, hc, hl, _⟩ := handleRequest_effect mc request
    exact ⟨l, by rw [hc], hl⟩
  · unfold firstNonEmptySegment
    revert hkey
    cases hs : strings.Split request.RawPath '/' with
    | nil => simp
    | cons p0 ps =>
      cases ps with
      | nil => simp
      | cons p1 rest =>
        intro hne
        have hne' : p1 ≠ "" := by simpa using hne
        have hb : (p1 != "") = true := by simp [hne']
        simp only [List.tail_cons, List.find?, hb]
        simp

/-- C18 amended, on `/svc1/x`: the key is `svc1`, the first non-empty segment. -/
theorem key_is_second_element_witness :
    (strings.Split "/svc1/x" '/').getD 1 "" ≠ ""
    ∧ firstNonEmptySegment "/svc1/x" = some "svc1"
    ∧ (handleRequest ⟨[], [], []⟩ (mkRequest "DELETE" "/svc1/x" [])).client.calls
      = [.Delete "svc1"] :=
  ⟨by decide,
   (key_is_second_element ⟨[], [], []⟩ (mkRequest "DELETE" "/svc1/x" []) (by decide)).2,
   by decide⟩

/-- C19: frame.  For every request, every cache and every key `k'` other than
the key taken from the request path, the value under `k'`, or its absence, is
the same after `handleRequest` as before. -/
theorem other_records_untouched (mc : memcache.Client) (request : LambdaFunctionURLRequest)
    (k' : String) (h : (strings.Split request.RawPath '/')[1]? ≠ some k') :
    (handleRequest mc request).client.items.lookup k' = mc.items.lookup k' := by
  by_cases hlen : (strings.Split request.RawPath '/').length < 2
  · rw [handleRequest_short mc request hlen]
  · have hkk : k' ≠ requestKey request := by
      intro e
      apply h
      unfold requestKey at e
      rw [e, List.getD_eq_getElem?_getD]
      have h1 : 1 < (strings.Split request.RawPath '/').length := by omega
      rw [List.getElem?_eq_getElem h1]
      rfl
    obtain ⟨items, faults, l, hc, _, hi⟩ := handleRequest_effect mc request
    rw [hc]
    rcases hi with hi | hi | hi <;> rw [hi]
    · rw [lookup_cons_ne _ _ _ _ hkk, lookup_without_ne _ _ _ hkk]
    · rw [lookup_without_ne _ _ _ hkk]

/-- C19 on `DELETE /svc1` and `PATCH /svc1` against a cache that also holds
`svc2`. -/
theorem other_records_untouched_witness :
    (strings.Split "/svc1" '/')[1]? ≠ some "svc2"
    ∧ (handleRequest ⟨[("svc1", "v"), ("svc2", "w")], [], []⟩
        (mkRequest "DELETE" "/svc1" [])).client.items.lookup "svc2" = some "w"
    ∧ (handleRequest ⟨[("svc1", "v"), ("svc2", "w")], [], []⟩
        (mkRequest "PATCH" "/svc1" [])).client.items.lookup "svc2" = some "w" :=
  ⟨by decide,
   other_records_untouched ⟨[("svc1", "v"), ("svc2", "w")], [], []⟩
     (mkRequest "DELETE" "/svc1" []) "svc2" (by decide),
   other_records_untouched ⟨[("svc1", "v"), ("svc2", "w")], [], []⟩
     (mkRequest "PATCH" "/svc1" []) "svc2" (by decide)⟩

theorem updateServerInfo_query (mc : memcache.Client) (key : String)
    (r r' : LambdaFunctionURLRequest) (h : r.QueryStringParameters = r'.QueryStringParameters) :
    updateServerInfo mc key r = updateServerInfo mc key r' := by
  unfold updateServerInfo
  rw [h]

/-- C20: POST is decided solely by its existence check.  For every key `k` (a
path segment), query map and cache: if `Get k` returns no error, POST has
exactly the outcome of PATCH with the same path and query handled once the
check has been made, and on a reliable cache the same response, error and
records as that PATCH handled in its place; if `Get k` returns an error, POST
is answered 403 with the conflict message and the only call made is that
`Get`. -/
theorem post_follows_existence_check (mc : memcache.Client) (k : String)
    (q : List (String × String)) (hk : '/' ∉ k.data) :
    (∀ item, (mc.Get k).1 = .ok item →
      handleRequest mc (mkRequest "POST" ("/" ++ k) q)
        = handleRequest (mc.Get k).2 (mkRequest "PATCH" ("/" ++ k) q))
    ∧ (∀ item, (mc.Get k).1 = .ok item → mc.reliable →
      (handleRequest mc (mkRequest "POST" ("/" ++ k) q)).response
          = (handleRequest mc (mkRequest "PATCH" ("/" ++ k) q)).response
        ∧ (handleRequest mc (mkRequest "POST" ("/" ++ k) q)).err
          = (handleRequest mc (mkRequest "PATCH" ("/" ++ k) q)).err
        ∧ (handleRequest mc (mkRequest "POST" ("/" ++ k) q)).client.items
          = (handleRequest mc (mkRequest "PATCH" ("/" ++ k) q)).client.items)
    ∧ (∀ e, (mc.Get k).1 = .error e →
      (handleRequest mc (mkRequest "POST" ("/" ++ k) q)).response
          = { StatusCode := 403, Body := conflictBody }
        ∧ (handleRequest mc (mkRequest "POST" ("/" ++ k) q)).err = none
        ∧ (handleRequest mc (mkRequest "POST" ("/" ++ k) q)).client.items = mc.items
        ∧ (handleRequest mc (mkRequest "POST" ("/" ++ k) q)).client.calls
          = mc.calls ++ [.Get k]) := by
  have hlen : ¬ (strings.Split (mkRequest "POST" ("/" ++ k) q).RawPath '/').length < 2 :=
    Split_slash_length k
  have hkey : requestKey (mkRequest "POST" ("/" ++ k) q) = k := by
    unfold requestKey
    simp only [mkRequest]
    rw [Split_slash_getD, firstSegment_eq k hk]
  have hg : (mkRequest "POST" ("/" ++ k) q).RequestContext.HTTP.Method ≠ http.MethodGet := by
    show "POST" ≠ "GET"
    decide
  have hwrite : ∀ item, (mc.Get k).1 = .ok item →
      handleRequest mc (mkRequest "POST" ("/" ++ k) q)
        = updateServerInfo ⟨mc.items, mc.faults.tail, mc.calls ++ [.Get k]⟩ k
            (mkRequest "PATCH" ("/" ++ k) q) := by
    intro item hi
    rw [handleRequest_POST_write mc _ hlen hg rfl item (by rw [hkey]; exact hi), hkey]
    exact updateServerInfo_query _ _ _ _ rfl
  refine ⟨?_, ?_, ?_⟩
  · intro item hi
    rw [hwrite item hi, Get_client, handleRequest_patch, firstSegment_eq k hk]
  · intro item hi hrel
    rw [hwrite item hi, handleRequest_patch, firstSegment_eq k hk,
      updateServerInfo_ok mc k _ (pending_of_reliable mc hrel),
      updateServerInfo_ok _ k _ (pending_of_reliable _ (reliable_tail mc _ _ hrel))]
    exact ⟨rfl, rfl, rfl⟩
  · intro e he
    rw [handleRequest_POST_conflict mc _ hlen hg rfl e (by rw [hkey]; exact he), hkey]
    exact ⟨rfl, rfl, rfl, rfl⟩

/-- C20 on a reliable cache: with `svc1` present POST writes like PATCH, with
`svc2` absent POST is answered 403 after one `Get`. -/
theorem post_follows_existence_check_witness :
    '/' ∉ "svc1".data
    ∧ (memcache.Client.Get ⟨[("svc1", "v")], [], []⟩ "svc1").1
        = .ok { Key := "svc1", Value := "v" }
    ∧ memcache.Client.reliable ⟨[("svc1", "v")], [], []⟩
    ∧ (handleRequest ⟨[("svc1", "v")], [], []⟩
        (mkRequest "POST" "/svc1" [("api", "x")])).client.items
      = (handleRequest ⟨[("svc1", "v")], [], []⟩
          (mkRequest "PATCH" "/svc1" [("api", "x")])).client.items
    ∧ (memcache.Client.Get ⟨[("svc1", "v")], [], []⟩ "svc2").1 = .error .ErrCacheMiss
    ∧ (handleRequest ⟨[("svc1", "v")], [], []⟩
        (mkRequest "POST" "/svc2" [("api", "x")])).client.calls = [.Get "svc2"] :=
  ⟨by decide, rfl, by decide,
   ((post_follows_existence_check ⟨[("svc1", "v")], [], []⟩ "svc1" [("api", "x")]
      (by decide)).2.1 _ rfl (by decide)).2.2,
   rfl,
   ((post_follows_existence_check ⟨[("svc1", "v")], [], []⟩ "svc2" [("api", "x")]
      (by decide)).2.2 _ rfl).2.2.2⟩

end Servers
